import Mathlib

/-!
Verification development for the tinyusdz USDA reader
(`src/usda-reader.cc`): a shallow embedding of the reader's
intermediate stores (PrimNode / PrimSpecNode), the prim-metadata
decoder `ReconstructPrimMeta`, the parser-facing callbacks
(prim-index allocation, typed prim construction, PrimSpec recording,
the GeomSubset special case), the reconstruction pass
(`ConstructPrimTreeRec` / `ReconstructStage`) and the layer path
(`ToPrimSpecRec` / `GetAsLayer`), together with theorems about them.

C++ `std::map` fields are modelled as association lists iterated in
stored order; machine integers `int64_t` are modelled as `Int` and
`size_t` indices as `Nat` (casts are made explicit where the source
casts).  External collaborators that are not part of the sources
(the `Path` class of prim-types.hh, the per-schema reconstructors of
prim-reconstruct.cc, `GeomSubset::SetElementType` / `SetFamilyType`
of usdGeom.hh, the AsciiParser) are modelled as abstract data or
oracle parameters, as noted at each definition.
-/

namespace UsdaReader

/-- `Specifier` of a Prim header: one of Def / Over / Class. -/
inductive Specifier where
  | defS
  | over
  | classS
deriving DecidableEq

instance : Inhabited Specifier := ⟨Specifier.defS⟩

/-- `ListEditQual` annotating list-valued metadata. -/
inductive ListEditQual where
  | resetToExplicit
  | append
  | add
  | del
  | prepend
  | invalid
deriving DecidableEq

instance : Inhabited ListEditQual := ⟨ListEditQual.resetToExplicit⟩

/-- `Kind` metadata enum (usda-reader.cc `kind` branch). -/
inductive Kind where
  | subcomponent
  | component
  | model
  | group
  | assembly
  | sceneLibrary
deriving DecidableEq

/-- `APISchemas::APIName` members listed in `ApiSchemaHandler`. -/
inductive APIName where
  | skelBindingAPI
  | materialBindingAPI
  | preliminaryPhysicsMaterialAPI
  | preliminaryPhysicsRigidBodyAPI
  | preliminaryPhysicsColliderAPI
deriving DecidableEq

/-- Attribute variability (prim-types.hh, external): only
`Uniform` is inspected by the GeomSubset callback. -/
inductive Variability where
  | uniform
  | varying
deriving DecidableEq

/-- Modelled from the spec: the `Path` class lives in prim-types.hh,
which is not among the sources.  The reader consults only
`is_valid()`, `is_absolute_path()`, `is_root_path()`, `prim_part()`,
`prop_part()` and, for GeomSubset, the validity of
`get_parent_prim_path()`; we record exactly those observations. -/
structure Path where
  valid : Bool
  absolute : Bool
  root : Bool
  primPart : String
  propPart : String
  parentPrimPathValid : Bool
deriving DecidableEq

instance : Inhabited Path := ⟨⟨false, false, false, "", "", false⟩⟩

/-- `Reference` composition arc (prim-types.hh, external): the reader
uses `asset_path` and `prim_path`. -/
structure Reference where
  asset_path : String
  prim_path : Path
deriving DecidableEq

/-- `Payload` composition arc: the `payload` metadata branch copies
`asset_path` and `prim_path` out of a parsed `Reference`. -/
structure Payload where
  asset_path : String
  prim_path : Path
deriving DecidableEq

/-- The value stored in a `MetaVariable`, restricted to the closed
set of alternatives `ReconstructPrimMeta` distinguishes through
`type_name()` / `type_id()` / `get_value<T>()` / `is_blocked()`;
every other value type is collapsed into `otherV` carrying its
`type_name()` string. -/
inductive MetaValue where
  | boolV (b : Bool)
  | tokenV (s : String)
  | stringV (s : String)
  | stringDataV (s : String)
  | dictV (entries : List (String × MetaValue))
  | pathV (p : Path)
  | pathVecV (ps : List Path)
  | refV (r : Reference)
  | refVecV (rs : List Reference)
  | tokenVecV (ts : List String)
  | strVecV (ss : List String)
  | blockV
  | otherV (tyName : String)

/-- `MetaVariable::type_name()` for the modelled alternatives. -/
def MetaValue.tyName : MetaValue → String
  | .boolV _ => "bool"
  | .tokenV _ => "token"
  | .stringV _ => "string"
  | .stringDataV _ => "string"
  | .dictV _ => "dictionary"
  | .pathV _ => "Path"
  | .pathVecV _ => "Path[]"
  | .refV _ => "Reference"
  | .refVecV _ => "Reference[]"
  | .tokenVecV _ => "token[]"
  | .strVecV _ => "string[]"
  | .blockV => "ValueBlock"
  | .otherV t => t

/-- `APISchemas` record (prim-types.hh): list-edit qualifier plus
recognized API names with instance names. -/
structure APISchemas where
  listOpQual : ListEditQual
  names : List (APIName × String)

/-- `VariantSelectionMap`: chosen variant per variant set
(`std::map<std::string, std::string>`). -/
abbrev VariantSelectionMap := List (String × String)

/-- `PrimMeta` (prim-types.hh): the structured metadata record
populated by `ReconstructPrimMeta`; only fields the decoder writes
are modelled. -/
structure PrimMeta where
  active : Option Bool := none
  hidden : Option Bool := none
  sceneName : Option String := none
  displayName : Option String := none
  kind : Option Kind := none
  customData : Option (List (String × MetaValue)) := none
  assetInfo : Option (List (String × MetaValue)) := none
  variants : Option VariantSelectionMap := none
  inherits : Option (ListEditQual × List Path) := none
  specializes : Option (ListEditQual × List Path) := none
  variantSets : Option (ListEditQual × List String) := none
  apiSchemas : Option APISchemas := none
  references : Option (ListEditQual × List Reference) := none
  payload : Option (ListEditQual × List Payload) := none
  comment : Option String := none

instance : Inhabited PrimMeta := ⟨{}⟩

/-- The parser's raw prim-metadata map
(`ascii::AsciiParser::PrimMetaMap`): key to (list-edit qualifier,
variant value), in textual order. -/
abbrev RawPrimMeta := List (String × ListEditQual × MetaValue)

/-- `ApiSchemaHandler` in `ReconstructPrimMeta`: match a token
against the enumerated API schema names; unknown tokens produce an
error string (which the caller only warns about). -/
def apiSchemaHandler (tok : String) : Except String APIName :=
  if tok = "SkelBindingAPI" then .ok .skelBindingAPI
  else if tok = "MaterialBindingAPI" then .ok .materialBindingAPI
  else if tok = "Preliminary_PhysicsMaterialAPI" then .ok .preliminaryPhysicsMaterialAPI
  else if tok = "Preliminary_PhysicsRigidBodyAPI" then .ok .preliminaryPhysicsRigidBodyAPI
  else if tok = "Preliminary_PhysicsColliderAPI" then .ok .preliminaryPhysicsColliderAPI
  else .error ("Allowed tokens are [...] but got " ++ tok ++ ".")

/-- `std::map` insert-or-overwrite used by `BuildVariants`
(`m[item.first] = value`). -/
def assocSet (m : List (String × String)) (k v : String) : List (String × String) :=
  match m with
  | [] => [(k, v)]
  | (k0, v0) :: rest => if k0 = k then (k0, v) :: rest else (k0, v0) :: assocSet rest k v

/-- `BuildVariants` in `ReconstructPrimMeta`: each dictionary entry
must hold a `string` (plain or triple-quoted); any other value type
is an error. -/
def buildVariants (dict : List (String × MetaValue)) : Except String VariantSelectionMap :=
  go dict []
where
  go : List (String × MetaValue) → VariantSelectionMap → Except String VariantSelectionMap
  | [], m => .ok m
  | (k, v) :: rest, m =>
    match v with
    | .stringV s => go rest (assocSet m k s)
    | .stringDataV s => go rest (assocSet m k s)
    | v =>
      .error ("TinyUSDZ only accepts `string` value for `variants` element, but got type `"
        ++ v.tyName ++ "`.")

/-- The `kind` token table of `ReconstructPrimMeta`. -/
def kindOfToken (t : String) : Option Kind :=
  if t = "subcomponent" then some .subcomponent
  else if t = "component" then some .component
  else if t = "model" then some .model
  else if t = "group" then some .group
  else if t = "assembly" then some .assembly
  else if t = "sceneLibrary" then some .sceneLibrary
  else none

/-- The api-name collection loop of the `apiSchemas` branch: names
recognized by `apiSchemaHandler` are kept (with empty instance
name), unknown names are warned about and dropped. -/
def collectApiNames (toks : List String) : List (APIName × String) :=
  toks.filterMap (fun t =>
    match apiSchemaHandler t with
    | .ok n => some (n, "")
    | .error _ => none)

/-- One key dispatch step of `USDAReader::Impl::ReconstructPrimMeta`
(usda-reader.cc lines 788-1068).  An `.error` result corresponds to
a `PUSH_ERROR_AND_RETURN` (message appended to `_err`, `false`
returned); `out` mutations made before a failing key are not
observable by any caller (the callback then discards the Prim), so
the model drops them.  `PUSH_WARN` branches (unknown key, unknown
API name) continue without failing. -/
def stepMeta (out : PrimMeta) (key : String) (q : ListEditQual) (var : MetaValue) :
    Except String PrimMeta :=
  if key = "active" then
    if var.tyName = "bool" then
      match var with
      | .boolV b => .ok { out with active := some b }
      | _ => .error "(Internal error?) `active` metadataum is not type `bool`."
    else .error ("(Internal error?) `active` metadataum is not type `bool`. got `" ++ var.tyName ++ "`.")
  else if key = "hidden" then
    if var.tyName = "bool" then
      match var with
      | .boolV b => .ok { out with hidden := some b }
      | _ => .error "(Internal error?) `hidden` metadataum is not type `bool`."
    else .error ("(Internal error?) `hidden` metadataum is not type `bool`. got `" ++ var.tyName ++ "`.")
  else if key = "sceneName" then
    if var.tyName = "string" then
      match var with
      | .stringV s => .ok { out with sceneName := some s }
      | _ => .error "(Internal error?) `sceneName` metadataum is not type `string`."
    else .error ("(Internal error?) `sceneName` metadataum is not type `string`. got `" ++ var.tyName ++ "`.")
  else if key = "displayName" then
    if var.tyName = "string" then
      match var with
      | .stringV s => .ok { out with displayName := some s }
      | _ => .error "(Internal error?) `displayName` metadataum is not type `string`."
    else .error ("(Internal error?) `displayName` metadataum is not type `string`. got `" ++ var.tyName ++ "`.")
  else if key = "kind" then
    if var.tyName = "token" then
      match var with
      | .tokenV t =>
        match kindOfToken t with
        | some k => .ok { out with kind := some k }
        | none => .error "Invalid token for `kind` metadataum."
      | _ => .error "(Internal error?) `kind` metadataum is not type `token`."
    else .error ("(Internal error?) `kind` metadataum is not type `token`. got `" ++ var.tyName ++ "`.")
  else if key = "customData" then
    -- the source checks `type_id() == TypeTraits<CustomDataType>::type_id()`
    -- and then `get_value<CustomDataType>()`; both succeed exactly on a dictionary value
    match var with
    | .dictV d => .ok { out with customData := some d }
    | _ => .error ("(Internal error?) `customData` metadataum is not type `dictionary`. got type `" ++ var.tyName ++ "`")
  else if key = "assetInfo" then
    match var with
    | .dictV d => .ok { out with assetInfo := some d }
    | _ => .error ("(Internal error?) `assetInfo` metadataum is not type `dictionary`. got type `" ++ var.tyName ++ "`")
  else if key = "variants" then
    match var with
    | .dictV d =>
      match buildVariants d with
      | .ok m => .ok { out with variants := some m }
      | .error e => .error e
    | _ => .error ("(Internal error?) `variants` metadataum is not type `dictionary`. got type `" ++ var.tyName ++ "`")
  else if key = "inherits" then
    match var with
    | .blockV => .ok { out with inherits := some (q, []) }
    | .pathVecV ps => .ok { out with inherits := some (q, ps) }
    | .pathV p => .ok { out with inherits := some (q, [p]) }
    | _ => .error ("(Internal error?) `inherits` metadataum should be either `path` or `path[]`. got type `" ++ var.tyName ++ "`")
  else if key = "specializes" then
    match var with
    | .blockV => .ok { out with specializes := some (q, []) }
    | .pathVecV ps => .ok { out with specializes := some (q, ps) }
    | .pathV p => .ok { out with specializes := some (q, [p]) }
    | _ => .error ("(Internal error?) `specializes` metadataum should be either `path` or `path[]`. got type `" ++ var.tyName ++ "`")
  else if key = "variantSets" then
    match var with
    | .blockV => .ok { out with variantSets := some (q, []) }
    | .stringDataV s => .ok { out with variantSets := some (q, [s]) }
    | .stringV s => .ok { out with variantSets := some (q, [s]) }
    | .strVecV ss => .ok { out with variantSets := some (q, ss) }
    | _ => .error ("(Internal error?) `variantSets` metadataum is not type `string` or `string[]`. got type `" ++ var.tyName ++ "`")
  else if key = "apiSchemas" then
    if var.tyName = "token[]" then
      if q ≠ ListEditQual.prepend ∧ q ≠ ListEditQual.resetToExplicit then
        .error "(PrimMeta) ListEdit op for `apiSchemas` must be empty or `prepend` in TinyUSDZ"
      else
        match var with
        | .tokenVecV toks =>
          .ok { out with apiSchemas := some { listOpQual := q, names := collectApiNames toks } }
        | _ => .error "(Internal error?) `apiSchemas` metadataum is not type `token[]`."
    else .error ("(Internal error?) `apiSchemas` metadataum is not type `token[]`. got type `" ++ var.tyName ++ "`")
  else if key = "references" then
    match var with
    | .blockV => .ok { out with references := some (q, []) }
    | .refV r => .ok { out with references := some (q, [r]) }
    | .refVecV rs => .ok { out with references := some (q, rs) }
    | _ => .error ("(Internal error?) `references` metadataum is not type `path` or `path[]`. got type `" ++ var.tyName ++ "`")
  else if key = "payload" then
    match var with
    | .blockV => .ok { out with payload := some (q, []) }
    | .refV r => .ok { out with payload := some (q, [⟨r.asset_path, r.prim_path⟩]) }
    | .refVecV rs => .ok { out with payload := some (q, rs.map (fun r => ⟨r.asset_path, r.prim_path⟩)) }
    | _ => .error ("(Internal error?) `references` metadataum is not type `path` or `path[]`. got type `" ++ var.tyName ++ "`")
  else if key = "comment" then
    -- NOTE (faithful to the source): a `comment` value that is neither
    -- StringData nor string is silently ignored; there is no error branch.
    match var with
    | .stringDataV s => .ok { out with comment := some s }
    | .stringV s => .ok { out with comment := some s }
    | _ => .ok out
  else
    -- unknown key: `PUSH_WARN("TODO: Prim metadataum : " ...)`, value ignored
    .ok out

/-- `USDAReader::Impl::ReconstructPrimMeta`: fold `stepMeta` over the
raw metadata map, starting from the caller-provided record. -/
def reconstructPrimMetaFrom (out : PrimMeta) : RawPrimMeta → Except String PrimMeta
  | [] => .ok out
  | (k, q, v) :: rest =>
    match stepMeta out k q v with
    | .error e => .error e
    | .ok out2 => reconstructPrimMetaFrom out2 rest

/-- Attribute values distinguished by the GeomSubset property loop:
`token`, `int[]`, anything else (carrying its `type_name()`). -/
inductive AttrVal where
  | tokenA (s : String)
  | intArrA (xs : List Int)
  | otherA (tyName : String)
deriving DecidableEq

/-- An attribute (prim-types.hh, external): value plus variability. -/
structure Attr where
  val : AttrVal
  variability : Variability
deriving DecidableEq

/-- `Attribute::type_name()` for the modelled alternatives. -/
def Attr.tyName (a : Attr) : String :=
  match a.val with
  | .tokenA _ => "token"
  | .intArrA _ => "int[]"
  | .otherA t => t

/-- A `Property` is a relationship or an attribute. -/
inductive Property where
  | rel
  | attr (a : Attr)
deriving DecidableEq

/-- `prim::PropertyMap`: ordered property-name-to-property map,
treated opaquely by the reader core. -/
abbrev PropMap := List (String × Property)

/-- The GeomSubset fields filled by the property loop.  The encoded
element/family types produced by the external `SetElementType` /
`SetFamilyType` (usdGeom.hh) are held as opaque `Nat`s. -/
structure GeomSubsetData where
  elementType : Nat := 0
  familyType : Nat := 0
  familyName : String := ""
  indices : List Nat := []
deriving DecidableEq

/-- Schema-specific payload of a stored typed prim: nothing (a
default-constructed `value::Value`), the opaque output of an
external `prim::ReconstructPrim<T>` call, or the GeomSubset data
assembled inline by the GeomSubset callback. -/
inductive PrimPayload where
  | emptyP
  | schemaP (data : Nat)
  | geomSubsetP (d : GeomSubsetData)

/-- The typed Prim value held in `PrimNode::prim` (a `value::Value`):
type tag (`value::Value::type_name()`), the `Model::prim_type_name`
field (meaningful only when `tyId = "Model"`), the common `name`,
`spec` and `meta` members attached by the callback, and the opaque
schema payload. -/
structure TypedPrim where
  tyId : String := ""
  prim_type_name : String := ""
  name : String := ""
  spec : Specifier := .defS
  meta : PrimMeta := {}
  payload : PrimPayload := .emptyP

instance : Inhabited TypedPrim := ⟨{}⟩

/-- Intermediate `VariantNode` (usda-reader.cc lines 120-124). -/
structure VariantNode where
  metas : PrimMeta := {}
  props : PropMap := []
  primChildren : List Int := []

instance : Inhabited VariantNode := ⟨{}⟩

/-- Intermediate `PrimNode` (usda-reader.cc lines 126-136).  The
`variantNodeMap` (`std::map` of `std::map`s in the source) is an
association list iterated in stored order. -/
structure PrimNode where
  prim : TypedPrim := {}
  elementName : String := ""
  typeName : String := ""
  parent : Int := -1
  parent_is_variant : Bool := false
  children : List Nat := []
  variantNodeMap : List (String × List (String × VariantNode)) := []

instance : Inhabited PrimNode := ⟨{}⟩

/-- `PrimSpec` (prim-types.hh, external): only the members the
reader reads or writes are modelled (`name()`, `specifier()`,
`typeName()`, `children()`). -/
inductive PrimSpec where
  | mk (name : String) (specifier : Specifier) (typeName : String) (children : List PrimSpec)

/-- Element name of a `PrimSpec`. -/
def PrimSpec.name : PrimSpec → String
  | .mk n _ _ _ => n

/-- Specifier of a `PrimSpec`. -/
def PrimSpec.specifier : PrimSpec → Specifier
  | .mk _ s _ _ => s

/-- Declared type name of a `PrimSpec`. -/
def PrimSpec.typeName : PrimSpec → String
  | .mk _ _ t _ => t

/-- Children of a `PrimSpec`. -/
def PrimSpec.children : PrimSpec → List PrimSpec
  | .mk _ _ _ cs => cs

instance : Inhabited PrimSpec := ⟨.mk "" .defS "" []⟩

/-- `PrimSpecNode` (usda-reader.cc lines 139-144). -/
structure PrimSpecNode where
  primSpec : PrimSpec := default
  parent : Int := -1
  children : List Nat := []

instance : Inhabited PrimSpecNode := ⟨{}⟩

/-- A `Layer`: the root PrimSpecs produced by `GetAsLayer`. -/
structure Layer where
  prim_specs : List PrimSpec := []

/-- The mutable members of `USDAReader::Impl` that the core reads
and writes (usda-reader.cc lines 1145-1204): error and warning
strings, the PrimNode store with its top-level index list, and the
PrimSpec store with its top-level index list and the
`_primspec_invalidated` flag (note its `{true}` initializer at
line 1190). -/
structure ReaderState where
  err : String := ""
  warn : String := ""
  prim_nodes : List PrimNode := []
  toplevel_prims : List Nat := []
  primspec_nodes : List PrimSpecNode := []
  toplevel_primspecs : List Nat := []
  primspec_invalidated : Bool := true

/-- A freshly constructed `USDAReader::Impl`: empty stores, empty
diagnostics, `_primspec_invalidated = true`. -/
def initialReaderState : ReaderState := {}

/-- `USDAReader::Impl::PushError`: appends to `_err`. -/
def pushError (st : ReaderState) (s : String) : ReaderState :=
  { st with err := st.err ++ s }

/-- `USDAReader::Impl::PushWarn` as written in the source
(usda-reader.cc lines 327-329): it appends to `_err`, not to
`_warn`. -/
def pushWarn (st : ReaderState) (s : String) : ReaderState :=
  { st with err := st.err ++ s }

/-- `USDAReader::Impl::GetError`. -/
def getError (st : ReaderState) : String := st.err

/-- `USDAReader::Impl::GetWarning`. -/
def getWarning (st : ReaderState) : String := st.warn

/-- `USDAReader::Impl::RegisterPrimIdxAssignCallback`
(usda-reader.cc lines 727-743): the registered lambda reads the
current PrimNode-store size as the fresh index and grows the store
by one default-initialized slot, ignoring the parent index. -/
def primIdxAssign (st : ReaderState) (parentPrimIdx : Int) : Nat × ReaderState :=
  let idx := st.prim_nodes.length
  (idx, { st with prim_nodes := st.prim_nodes ++ [default] })

/-- A sequence of prim-index allocator calls (one per encountered
Prim header), given the parent argument of each call; returns the
assigned indices and the final state. -/
def runAssignsFrom (st : ReaderState) : List Int → List Nat × ReaderState
  | [] => ([], st)
  | p :: ps =>
    let (idx, st2) := primIdxAssign st p
    let (idxs, st3) := runAssignsFrom st2 ps
    (idx :: idxs, st3)

/-- Allocator-call sequence starting from a fresh reader. -/
def runAssigns (parents : List Int) : List Nat × ReaderState :=
  runAssignsFrom initialReaderState parents

/-- In-place element update of a flat store (`_prim_nodes[i] = ...`);
out-of-range indices leave the store unchanged. -/
def updateAt {α : Type} (l : List α) (i : Nat) (f : α → α) : List α :=
  match l, i with
  | [], _ => []
  | x :: xs, 0 => f x :: xs
  | x :: xs, i + 1 => x :: updateAt xs i f

/-- `std::vector::resize(n)` in its growing direction: pad with
default-initialized slots up to length `n` (identity when the store
is already at least that long, which is how every resize in the
reader is guarded). -/
def growTo {α : Type} [Inhabited α] (l : List α) (n : Nat) : List α :=
  l ++ List.replicate (n - l.length) default

/-- Decidable membership test on `Int` lists, standing in for
`std::set<int64_t>::count`. -/
def intMem (v : Int) : List Int → Bool
  | [] => false
  | x :: xs => if x = v then true else intMem v xs

/-- The body of one variant inside the parser's raw variant list
(`ascii::AsciiParser::VariantContent`): raw metas, properties, and
the indices of Prims declared inside the variant braces. -/
structure VariantContent where
  metas : RawPrimMeta := []
  props : PropMap := []
  primIndices : List Int := []

/-- `ascii::AsciiParser::VariantSetList`: variant-set name to
(variant name to content). -/
abbrev VariantSetList := List (String × List (String × VariantContent))

/-- The child-index loop of the callback's variant conversion
(usda-reader.cc lines 520-532): validate each recorded child index
against the current store size, record it, and set that child's
`parent_is_variant` flag.  On error the flags already set persist
(the store is mutated in place in the source), so the possibly
mutated store is returned in both outcomes. -/
def vsChildLoop : List PrimNode → List Int → List Int → (Except String (List Int)) × List PrimNode
  | nodes, acc, [] => (.ok acc, nodes)
  | nodes, acc, c :: rest =>
    if c < 0 then
      (.error "[InternalError] Invalid primIndex found within VariantSet.", nodes)
    else if decide (nodes.length ≤ c.toNat) then
      (.error "[InternalError] Invalid primIndex found within VariantSet. Exceeds _prim_nodes.size()", nodes)
    else
      vsChildLoop (updateAt nodes c.toNat (fun nd => { nd with parent_is_variant := true }))
        (acc ++ [c]) rest

/-- The per-variant loop of the callback's variant conversion
(usda-reader.cc lines 512-535): decode the variant's metas, copy its
properties, and run the child-index loop. -/
def vsVariantLoop (st : ReaderState) (setName : String)
    (acc : List (String × VariantNode)) :
    List (String × VariantContent) → (Except String (List (String × VariantNode))) × ReaderState
  | [] => (.ok acc, st)
  | (vname, content) :: rest =>
    match reconstructPrimMetaFrom {} content.metas with
    | .error e =>
      (.error ("Failed to process Prim metadataum in variantSet " ++ setName ++ " item " ++ vname ++ " "),
       pushError st e)
    | .ok metas =>
      match vsChildLoop st.prim_nodes [] content.primIndices with
      | (.error e, nodes2) => (.error e, { st with prim_nodes := nodes2 })
      | (.ok childIdxs, nodes2) =>
        vsVariantLoop { st with prim_nodes := nodes2 } setName
          (acc ++ [(vname, { metas := metas, props := content.props, primChildren := childIdxs })]) rest

/-- The outer variant-set loop of the callback's variant conversion
(usda-reader.cc lines 506-539). -/
def vsSetLoop (st : ReaderState)
    (acc : List (String × List (String × VariantNode))) :
    VariantSetList → (Except String (List (String × List (String × VariantNode)))) × ReaderState
  | [] => (.ok acc, st)
  | (setName, items) :: rest =>
    match vsVariantLoop st setName [] items with
    | (.error e, st2) => (.error e, st2)
    | (.ok vns, st2) => vsSetLoop st2 (acc ++ [(setName, vns)]) rest

/-- The typed prim-construct callback registered by
`USDAReader::Impl::RegisterReconstructCallback<T>` (usda-reader.cc
lines 439-581).  `tyId` is `T`'s value-type tag; `recon` stands for
the external `prim::ReconstructPrim<T>` of prim-reconstruct.cc (not
among the sources), producing the schema-specific fields modelled
opaquely; on its failure the generic `Impl::ReconstructPrim` wrapper
(lines 1815-1826) appends the schema error to `_err` and the
callback returns the `nonstd::make_unexpected` diagnostic.  The
result pairs the callback's `expected<bool, string>` with the reader
state after the call. -/
def primConstructCallback (tyId : String)
    (recon : PropMap → List Reference → Except String Nat)
    (st : ReaderState) (fullPath : Path) (spec : Specifier) (primTypeName : String)
    (primName : Path) (primIdx parentPrimIdx : Int) (properties : PropMap)
    (inMeta : RawPrimMeta) (inVariants : VariantSetList) :
    (Except String Bool) × ReaderState :=
  if primName.valid = false then
    (.error ("Invalid Prim name: " ++ primName.primPart), st)
  else if primName.absolute || primName.root then
    (.error ("Prim name should not starts with / or contain `/`: Prim name = " ++ primName.primPart), st)
  else if primName.propPart ≠ "" then
    (.error ("Prim path should not contain property part(`.`): Prim name = " ++ primName.primPart), st)
  else if primIdx < 0 then
    (.error "Unexpected primIdx value. primIdx must be positive.", st)
  else
    match reconstructPrimMetaFrom {} inMeta with
    | .error e => (.error "Failed to process Prim metadataum.", pushError st e)
    | .ok meta =>
      let references := match meta.references with
        | some (_, refs) => refs
        | none => []
      match recon properties references with
      | .error e =>
        (.error ("Failed to reconstruct Prim: " ++ primName.primPart),
         pushError st ("Failed to reconstruct " ++ tyId ++ " Prim: " ++ e))
      | .ok schemaData =>
        let prim : TypedPrim :=
          { tyId := tyId, prim_type_name := "", name := primName.primPart,
            spec := spec, meta := meta, payload := .schemaP schemaData }
        match vsSetLoop st [] inVariants with
        | (.error e, st2) => (.error e, st2)
        | (.ok variantSets, st2) =>
          -- `if (size_t(primIdx) >= _prim_nodes.size()) resize(primIdx + 1)`
          let nodes0 := growTo st2.prim_nodes (primIdx.toNat + 1)
          -- store prim / typeName / variantNodeMap / parent; the `as<Model>()`
          -- block at lines 557-564 then overwrites `prim_type_name` on a
          -- stored Model prim with the declared type-name string
          let storedPrim :=
            if tyId = "Model" then { prim with prim_type_name := primTypeName } else prim
          let nodes1 := updateAt nodes0 primIdx.toNat (fun nd =>
            { nd with prim := storedPrim, typeName := primTypeName,
                      variantNodeMap := variantSets, parent := parentPrimIdx })
          if parentPrimIdx = -1 then
            (.ok true, { st2 with prim_nodes := nodes1,
                                  toplevel_prims := st2.toplevel_prims ++ [primIdx.toNat] })
          else
            let nodes2 := updateAt nodes1 parentPrimIdx.toNat (fun nd =>
              { nd with children := nd.children ++ [primIdx.toNat] })
            (.ok true, { st2 with prim_nodes := nodes2 })

/-- The untyped PrimSpec callback registered by
`USDAReader::Impl::RegisterPrimSpecHandler` (usda-reader.cc lines
583-661): same name validation plus an empty-name check, then record
only name / specifier / typeName (metas, props and variants are
`TODO` in the source and not stored) and link into the PrimSpec
store. -/
def primSpecCallback (st : ReaderState) (fullPath : Path) (spec : Specifier)
    (typeName : String) (primName : Path) (primIdx parentPrimIdx : Int)
    (properties : PropMap) (inMeta : RawPrimMeta) (inVariants : VariantSetList) :
    (Except String Bool) × ReaderState :=
  if primName.valid = false then
    (.error ("Invalid Prim name: " ++ primName.primPart), st)
  else if primName.absolute || primName.root then
    (.error ("Prim name should not starts with / or contain `/`: Prim name = " ++ primName.primPart), st)
  else if primName.propPart ≠ "" then
    (.error ("Prim path should not contain property part(`.`): Prim name = " ++ primName.primPart), st)
  else if primIdx < 0 then
    (.error "Unexpected primIdx value. primIdx must be positive.", st)
  else if primName.primPart = "" then
    (.error "Prim's name should not be empty ", st)
  else
    let primspec := PrimSpec.mk primName.primPart spec typeName []
    let nodes0 := growTo st.primspec_nodes (primIdx.toNat + 1)
    let nodes1 := updateAt nodes0 primIdx.toNat (fun nd =>
      { nd with primSpec := primspec, parent := parentPrimIdx })
    if parentPrimIdx = -1 then
      (.ok true, { st with primspec_nodes := nodes1,
                           toplevel_primspecs := st.toplevel_primspecs ++ [primIdx.toNat] })
    else
      let nodes2 := updateAt nodes1 parentPrimIdx.toNat (fun nd =>
        { nd with children := nd.children ++ [primIdx.toNat] })
      (.ok true, { st with primspec_nodes := nodes2 })

/-- The GeomSubset property loop (usda-reader.cc lines 1675-1750,
the active `#else` branch).  `setE` / `setF` stand for the external
`GeomSubset::SetElementType` / `SetFamilyType` (usdGeom.hh, not
among the sources).  A `none` outcome is a `PUSH_ERROR_AND_RETURN`
inside the expected-returning lambda: the message is appended to
`_err` and the lambda returns the value `false` (not an unexpected).
Unknown property names are warned about via `PushWarn` and
skipped. -/
def subsetPropsLoop (setE setF : String → Except String Nat) (st : ReaderState)
    (subset : GeomSubsetData) :
    List (String × Property) → Option GeomSubsetData × ReaderState
  | [] => (some subset, st)
  | (pname, p) :: rest =>
    if pname = "elementType" then
      match p with
      | .rel => (none, pushError st "`elementType` property as Relation is not supported.")
      | .attr a =>
        match a.val, a.variability with
        | .tokenA s, .uniform =>
          match setE s with
          | .ok v => subsetPropsLoop setE setF st { subset with elementType := v } rest
          | .error e => (none, pushError st e)
        | _, _ => (none, pushError st "`elementType` property must be `uniform token` type.")
    else if pname = "familyType" then
      match p with
      | .rel => (none, pushError st "`familyType` property as Relation is not supported.")
      | .attr a =>
        match a.val, a.variability with
        | .tokenA s, .uniform =>
          match setF s with
          | .ok v => subsetPropsLoop setE setF st { subset with familyType := v } rest
          | .error e => (none, pushError st e)
        | _, _ => (none, pushError st "`familyType` property must be `uniform token` type.")
    else if pname = "indices" then
      match p with
      | .rel => (none, pushError st "`indices` property as Relation is not supported.")
      | .attr a =>
        match a.val with
        | .intArrA xs =>
          -- `std::transform(..., std::back_inserter(subset.indices), [](int a){ return uint32_t(a); })`
          subsetPropsLoop setE setF st
            { subset with indices := subset.indices ++ xs.map (fun a => (a % 4294967296).toNat) } rest
        | _ => (none, pushError st ("`indices` property must be `int[]` type, but got `" ++ a.tyName ++ "`"))
    else if pname = "material:binding" then
      match p with
      | .rel => subsetPropsLoop setE setF st subset rest
      | .attr _ => (none, pushError st "`material:binding` property as Attribute is not supported.")
    else if pname = "familyName" then
      match p with
      | .rel => (none, pushError st "`familyName` property as Relation is not supported.")
      | .attr a =>
        match a.val with
        | .tokenA s => subsetPropsLoop setE setF st { subset with familyName := s } rest
        | _ => (none, pushError st ("`familyName` property must be `token` type, but got `" ++ a.tyName ++ "`"))
    else
      subsetPropsLoop setE setF (pushWarn st ("GeomSubset: TODO: " ++ pname)) subset rest

/-- The specialized GeomSubset prim-construct callback
(`RegisterReconstructCallback<GeomSubset>`, usda-reader.cc lines
1539-1783, active `#else` branch): parent-path validity check,
top-level rejection (`parentPrimIdx < 0`), parent-index sanity
check, metadata decode, property loop, then linking into the
PrimNode store (no `typeName` / `variantNodeMap` is recorded for a
GeomSubset node). -/
def geomSubsetCallback (setE setF : String → Except String Nat) (st : ReaderState)
    (fullPath : Path) (spec : Specifier) (primTypeName : String) (primName : Path)
    (primIdx parentPrimIdx : Int) (properties : PropMap)
    (inMeta : RawPrimMeta) (inVariants : VariantSetList) :
    (Except String Bool) × ReaderState :=
  -- `const Path &parent = full_path.get_parent_prim_path(); if (!parent.is_valid()) ...`
  if fullPath.parentPrimPathValid = false then
    (.error "Invalid Prim path.", st)
  else if parentPrimIdx < 0 then
    (.error "GeomSubset muet be defined as a child of GeomMesh.", st)
  else if decide ((st.prim_nodes.length : Int) < parentPrimIdx) then
    -- the source checks `_prim_nodes.size() < size_t(parentPrimIdx)`
    (.error "Unexpected parentPrimIdx for GeomSubset.", st)
  else
    match reconstructPrimMetaFrom {} inMeta with
    | .error e => (.error "Failed to process Prim metadataum.", pushError st e)
    | .ok meta =>
      match subsetPropsLoop setE setF st {} properties with
      | (none, st2) => (.ok false, st2)
      | (some subsetData, st2) =>
        let subset : TypedPrim :=
          { tyId := "GeomSubset", prim_type_name := "", name := primName.primPart,
            spec := spec, meta := meta, payload := .geomSubsetP subsetData }
        let nodes0 := growTo st2.prim_nodes (primIdx.toNat + 1)
        let nodes1 := updateAt nodes0 primIdx.toNat (fun nd =>
          { nd with prim := subset, parent := parentPrimIdx })
        if parentPrimIdx = -1 then
          (.ok true, { st2 with prim_nodes := nodes1,
                                toplevel_prims := st2.toplevel_prims ++ [primIdx.toNat] })
        else
          let nodes2 := updateAt nodes1 parentPrimIdx.toNat (fun nd =>
            { nd with children := nd.children ++ [primIdx.toNat] })
          (.ok true, { st2 with prim_nodes := nodes2 })

/-- The output `Prim` tree value built by the reconstruction pass
(prim-types.hh `Prim`, restricted to the members this pass writes):
the typed payload, `prim_type_name()`, the variant sets (set name to
variant name to (metas, properties, primChildren)), and the ordinary
children. -/
inductive Prim where
  | mk (payload : TypedPrim) (primTypeName : String)
       (variantSets : List (String × List (String × PrimMeta × PropMap × List Prim)))
       (children : List Prim)

/-- Typed payload of an output Prim. -/
def Prim.payload : Prim → TypedPrim
  | .mk p _ _ _ => p

/-- `prim_type_name()` of an output Prim. -/
def Prim.primTypeNameOf : Prim → String
  | .mk _ t _ _ => t

/-- Variant sets of an output Prim. -/
def Prim.variantSets : Prim → List (String × List (String × PrimMeta × PropMap × List Prim))
  | .mk _ _ v _ => v

/-- Ordinary children of an output Prim. -/
def Prim.children : Prim → List Prim
  | .mk _ _ _ c => c

instance : Inhabited Prim := ⟨.mk default "" [] []⟩

/-- Innermost loop of `ConstructPrimTreeRec` over one variant's
`primChildren` (usda-reader.cc lines 1367-1394): reject an index
already in `variantChildrenIndices`, range-check (note the source's
`size_t(vidx) <= prim_nodes.size()`), recurse, and record the index
as visited.  `rec` is the recursive call on a child index. -/
def pvcLoop (rec : Nat → Except String Prim) (nodesLen : Nat) :
    List Int → List Prim → List Int → Except String (List Prim × List Int)
  | [], acc, visited => .ok (acc, visited)
  | vidx :: rest, acc, visited =>
    if intMem vidx visited then
      .error "variant primIdx is referenced multiple times."
    else if 0 ≤ vidx ∧ vidx.toNat ≤ nodesLen then
      match rec vidx.toNat with
      | .error e => .error e
      | .ok p => pvcLoop rec nodesLen rest (acc ++ [p]) (vidx :: visited)
    else
      .error "primIndex exceeds prim_nodes.size()"

/-- Per-variant loop of `ConstructPrimTreeRec` (lines 1364-1400):
build each variant from its children plus the recorded metas and
properties; the visited set threads through all variants of the
node. -/
def pvLoop (rec : Nat → Except String Prim) (nodesLen : Nat) :
    List (String × VariantNode) → List (String × PrimMeta × PropMap × List Prim) →
    List Int → Except String (List (String × PrimMeta × PropMap × List Prim) × List Int)
  | [], acc, visited => .ok (acc, visited)
  | (vName, vn) :: rest, acc, visited =>
    match pvcLoop rec nodesLen vn.primChildren [] visited with
    | .error e => .error e
    | .ok (ps, visited2) =>
      pvLoop rec nodesLen rest (acc ++ [(vName, vn.metas, vn.props, ps)]) visited2

/-- Variant-set loop of `ConstructPrimTreeRec` (lines 1361-1402). -/
def pvsLoop (rec : Nat → Except String Prim) (nodesLen : Nat) :
    List (String × List (String × VariantNode)) →
    List (String × List (String × PrimMeta × PropMap × List Prim)) →
    List Int →
    Except String (List (String × List (String × PrimMeta × PropMap × List Prim)) × List Int)
  | [], acc, visited => .ok (acc, visited)
  | (vsName, variants) :: rest, acc, visited =>
    match pvLoop rec nodesLen variants [] visited with
    | .error e => .error e
    | .ok (vars, visited2) =>
      pvsLoop rec nodesLen rest (acc ++ [(vsName, vars)]) visited2

/-- Ordinary-children loop of `ConstructPrimTreeRec` (lines
1405-1417): skip indices already placed inside a variant of this
node, recurse on the rest. -/
def pocLoop (rec : Nat → Except String Prim) (visited : List Int) :
    List Nat → List Prim → Except String (List Prim)
  | [], acc => .ok acc
  | cidx :: rest, acc =>
    if intMem (Int.ofNat cidx) visited then
      pocLoop rec visited rest acc
    else
      match rec cidx with
      | .error e => .error e
      | .ok p => pocLoop rec visited rest (acc ++ [p])

/-- `ConstructPrimTreeRec` (usda-reader.cc lines 1329-1421).  The
source recurses without a bound and can loop on a cyclic store; the
`fuel` argument is the recursion budget of the model (the
fuel-exhausted error is a model artifact, every theorem below either
supplies enough fuel or hypothesizes a successful run).  `destNull`
models a nullptr `destPrim` argument; recursive calls always pass a
valid destination. -/
def constructPrimTreeRec : Nat → Bool → Nat → List PrimNode → Except String Prim
  | 0, _, _, _ => .error "constructPrimTreeRec: recursion fuel exhausted"
  | fuel + 1, destNull, primIdx, nodes =>
    if destNull then .error "`destPrim` is nullptr."
    else if nodes.length ≤ primIdx then .error "primIndex exceeds prim_nodes.size()"
    else
      let node := nodes.getD primIdx default
      match pvsLoop (fun v => constructPrimTreeRec fuel false v nodes) nodes.length
          node.variantNodeMap [] [] with
      | .error e => .error e
      | .ok (vsets, visited) =>
        match pocLoop (fun v => constructPrimTreeRec fuel false v nodes) visited
            node.children [] with
        | .error e => .error e
        | .ok childPrims => .ok (Prim.mk node.prim node.typeName vsets childPrims)

/-- The toplevel loop of `USDAReader::Impl::ReconstructStage`
(usda-reader.cc lines 1432-1472): build each toplevel index in turn;
on the first failure return `false`, keeping the root Prims
completed so far (they were already emplaced into
`_stage.root_prims()`). -/
def reconstructStageLoop (fuel : Nat) (nodes : List PrimNode) :
    List Nat → List Prim → Bool × List Prim
  | [], acc => (true, acc)
  | idx :: rest, acc =>
    match constructPrimTreeRec fuel false idx nodes with
    | .error _ => (false, acc)
    | .ok p => reconstructStageLoop fuel nodes rest (acc ++ [p])

/-- `USDAReader::Impl::ReconstructStage`: clear the Stage's root
list, then run the toplevel loop; the returned list is
`_stage.root_prims()` after the call.  The final absolute-path /
prim-id assignment (`compute_absolute_prim_path_and_assign_prim_id`,
an external `Stage` method) changes no tree membership and is
omitted. -/
def reconstructStage (fuel : Nat) (nodes : List PrimNode) (toplevel : List Nat) :
    Bool × List Prim :=
  reconstructStageLoop fuel nodes toplevel []

mutual

/-- Number of Prims in an output tree whose element name equals
`target` (ordinary children and variant children both counted). -/
def primNameCount (target : String) : Prim → Nat
  | .mk tp _ vsets cs =>
    (if tp.name = target then 1 else 0) + primListNameCount target cs + vsetsNameCount target vsets

/-- `primNameCount` summed over a list of Prims. -/
def primListNameCount (target : String) : List Prim → Nat
  | [] => 0
  | p :: ps => primNameCount target p + primListNameCount target ps

/-- `primNameCount` summed over the variant sets of a Prim. -/
def vsetsNameCount (target : String) :
    List (String × List (String × PrimMeta × PropMap × List Prim)) → Nat
  | [] => 0
  | (_, vars) :: rest => varsNameCount target vars + vsetsNameCount target rest

/-- `primNameCount` summed over the variants of one variant set. -/
def varsNameCount (target : String) :
    List (String × PrimMeta × PropMap × List Prim) → Nat
  | [] => 0
  | (_, _, _, ps) :: rest => primListNameCount target ps + varsNameCount target rest

end

/-- Child loop of `ToPrimSpecRec` (usda-reader.cc lines 1213-1222):
range-check each child index and recurse, threading the parent
being built.  `rec` is the recursive call. -/
def toPrimSpecChildLoop (rec : PrimSpecNode → PrimSpec → Except String PrimSpec)
    (nodes : List PrimSpecNode) :
    List Nat → PrimSpec → Except String PrimSpec
  | [], parent => .ok parent
  | cidx :: rest, parent =>
    if nodes.length ≤ cidx then .error "out-of-bounds child index"
    else
      match rec (nodes.getD cidx default) parent with
      | .error e => .error e
      | .ok parent2 => toPrimSpecChildLoop rec nodes rest parent2

/-- `ToPrimSpecRec` (usda-reader.cc lines 1210-1227): process the
node's children (each appending itself to the same `parent`), then
append this node's PrimSpec to the parent's child list.  Fueled for
the same reason as `constructPrimTreeRec`; the source's move-out of
`node.primSpec` is value-copied here (the call site is unreachable,
see `getAsLayer`). -/
def toPrimSpecRec : Nat → PrimSpecNode → List PrimSpecNode → PrimSpec → Except String PrimSpec
  | 0, _, _, _ => .error "toPrimSpecRec: recursion fuel exhausted"
  | fuel + 1, node, nodes, parent =>
    match toPrimSpecChildLoop (fun child par => toPrimSpecRec fuel child nodes par)
        nodes node.children parent with
    | .error e => .error e
    | .ok parent2 =>
      .ok (PrimSpec.mk parent2.name parent2.specifier parent2.typeName
            (parent2.children ++ [node.primSpec]))

/-- Toplevel loop of `USDAReader::Impl::GetAsLayer` (usda-reader.cc
lines 1243-1263): bounds-check each toplevel PrimSpec index, build
its tree in place, and append it to the layer; a tree-construction
failure sets `_primspec_invalidated` before erroring out. -/
def getAsLayerLoop (fuel : Nat) :
    ReaderState → List PrimSpec → List Nat → Bool × ReaderState × List PrimSpec
  | st, acc, [] => (true, st, acc)
  | st, acc, idx :: rest =>
    if st.primspec_nodes.length ≤ idx then
      (false, pushError st "[Internal Error] out-of-bounds access.", acc)
    else
      let node := st.primspec_nodes.getD idx default
      match toPrimSpecRec fuel node st.primspec_nodes node.primSpec with
      | .error _ =>
        (false,
         pushError { st with primspec_invalidated := true } "Construct PrimSpec tree failed.",
         acc)
      | .ok built =>
        getAsLayerLoop fuel
          { st with primspec_nodes :=
              updateAt st.primspec_nodes idx (fun nd => { nd with primSpec := built }) }
          (acc ++ [built]) rest

/-- `USDAReader::Impl::GetAsLayer` (usda-reader.cc lines 1231-1269):
nullptr check, the `_primspec_invalidated` guard, then the toplevel
loop; on success the flag is set (one-shot) and the layer
returned. -/
def getAsLayer (fuel : Nat) (st : ReaderState) (layerIsNull : Bool) :
    Bool × ReaderState × Option Layer :=
  if layerIsNull then
    (false, pushError st "layer arg is nullptr.", none)
  else if st.primspec_invalidated then
    (false,
     pushError st "PrimSpec data is invalid. USD data is not loaded or there was an error in earlier GetAsLayer call, or GetAsLayer invoked multiple times.",
     none)
  else
    match getAsLayerLoop fuel st [] st.toplevel_primspecs with
    | (false, st2, _) => (false, st2, none)
    | (true, st2, specs) => (true, { st2 with primspec_invalidated := true }, some ⟨specs⟩)

/-- One reader-state mutation available while `Read` runs
(usda-reader.cc lines 1836-1898): the parser invokes the registered
callbacks synchronously, and `Read` itself only pushes diagnostics
on parse failure.  The stage-metadata callback writes exclusively to
the `Stage` metadata object and touches none of the fields modelled
in `ReaderState`, so it has no constructor here. -/
inductive ReaderOp where
  | idxAssignOp (parentPrimIdx : Int)
  | primConstructOp (tyId : String) (recon : PropMap → List Reference → Except String Nat)
      (fullPath : Path) (spec : Specifier) (primTypeName : String) (primName : Path)
      (primIdx parentPrimIdx : Int) (properties : PropMap)
      (inMeta : RawPrimMeta) (inVariants : VariantSetList)
  | primSpecOp (fullPath : Path) (spec : Specifier) (typeName : String) (primName : Path)
      (primIdx parentPrimIdx : Int) (properties : PropMap)
      (inMeta : RawPrimMeta) (inVariants : VariantSetList)
  | geomSubsetOp (setE setF : String → Except String Nat) (fullPath : Path)
      (spec : Specifier) (primTypeName : String) (primName : Path)
      (primIdx parentPrimIdx : Int) (properties : PropMap)
      (inMeta : RawPrimMeta) (inVariants : VariantSetList)
  | pushErrOp (s : String)
  | pushWarnOp (s : String)

/-- Apply one reader-state mutation. -/
def applyOp (st : ReaderState) : ReaderOp → ReaderState
  | .idxAssignOp p => (primIdxAssign st p).2
  | .primConstructOp tyId recon fp sp ptn pn pi ppi props m vs =>
    (primConstructCallback tyId recon st fp sp ptn pn pi ppi props m vs).2
  | .primSpecOp fp sp tn pn pi ppi props m vs =>
    (primSpecCallback st fp sp tn pn pi ppi props m vs).2
  | .geomSubsetOp sE sF fp sp ptn pn pi ppi props m vs =>
    (geomSubsetCallback sE sF st fp sp ptn pn pi ppi props m vs).2
  | .pushErrOp s => pushError st s
  | .pushWarnOp s => pushWarn st s

/-- Run a sequence of reader-state mutations (everything a `Read`
call can do to the modelled state). -/
def runOps : ReaderState → List ReaderOp → ReaderState
  | st, [] => st
  | st, op :: ops => runOps (applyOp st op) ops

/-- The per-key strict type expectation of `ReconstructPrimMeta`:
`true` when `ReconstructPrimMeta` has an error branch for this
key/value combination because the value's type differs from the
type(s) the key's branch accepts.  `references`, `payload` and
`comment` have no such check here: the first two accept single /
list / blocked forms, and the `comment` branch silently ignores
mismatched types. -/
def strictMismatch (k : String) (v : MetaValue) : Bool :=
  if k = "active" then
    match v with | .boolV _ => false | _ => true
  else if k = "hidden" then
    match v with | .boolV _ => false | _ => true
  else if k = "sceneName" then
    match v with | .stringV _ => false | _ => true
  else if k = "displayName" then
    match v with | .stringV _ => false | _ => true
  else if k = "kind" then
    match v with | .tokenV _ => false | _ => true
  else if k = "customData" then
    match v with | .dictV _ => false | _ => true
  else if k = "assetInfo" then
    match v with | .dictV _ => false | _ => true
  else if k = "variants" then
    match v with | .dictV _ => false | _ => true
  else if k = "inherits" then
    match v with | .blockV => false | .pathVecV _ => false | .pathV _ => false | _ => true
  else if k = "specializes" then
    match v with | .blockV => false | .pathVecV _ => false | .pathV _ => false | _ => true
  else if k = "variantSets" then
    match v with
    | .blockV => false | .stringDataV _ => false | .stringV _ => false | .strVecV _ => false
    | _ => true
  else if k = "apiSchemas" then
    match v with | .tokenVecV _ => false | _ => true
  else false

/-- Modelled from the spec: the AsciiParser (ascii-parser.cc, not
among the sources) dispatches each Prim header to the prim-construct
callback registered under its declared type name; when no typed
callback matches and `allow_unknown_prims` is set it falls back to
the callback registered under `"Model"`, passing the original
declared type-name string through unchanged; without the flag no
callback fires and a diagnostic is emitted. -/
def dispatchPrimConstruct (registered : List String) (allowUnknownPrims : Bool)
    (typeName : String) : Option String :=
  if typeName ∈ registered then some typeName
  else if allowUnknownPrims then some "Model" else none

/-- All child indices recorded across the variants of one variant
set, in iteration order. -/
def variantsChildIndices (variants : List (String × VariantNode)) : List Int :=
  (variants.map (fun it => it.2.primChildren)).flatten

/-- All child indices recorded across all variant sets of a node, in
iteration order: the sequence the `variantChildrenIndices` set of
`ConstructPrimTreeRec` is fed. -/
def variantChildIndices (vsl : List (String × List (String × VariantNode))) : List Int :=
  (vsl.map (fun vs => variantsChildIndices vs.2)).flatten

/-- How an output variant corresponds to its intermediate
`VariantNode`: same variant name, the recorded metas and properties
copied over, and one emitted child Prim per recorded child index. -/
def variantRel (vn : String × VariantNode) (ov : String × PrimMeta × PropMap × List Prim) :
    Prop :=
  ov.1 = vn.1 ∧ ov.2.1 = vn.2.metas ∧ ov.2.2.1 = vn.2.props ∧
  ov.2.2.2.length = vn.2.primChildren.length

/-- How an output variant set corresponds to its intermediate map
entry: same set name, variants in correspondence. -/
def variantSetRel (vs : String × List (String × VariantNode))
    (ovs : String × List (String × PrimMeta × PropMap × List Prim)) : Prop :=
  ovs.1 = vs.1 ∧ List.Forall₂ variantRel vs.2 ovs.2

/-- A typed prim value carrying only an element name (fixture). -/
def tpName (s : String) : TypedPrim := { name := s }

/-- Fixture: a variant whose `primChildren` records store index 1. -/
def spliceVariant : VariantNode := { primChildren := [1] }

/-- Fixture store for cross-node duplicate reachability: index 1 is
recorded as a variant child (and ordinary child) of node 0 and also
as an ordinary child of node 2. -/
def crossDupStore : List PrimNode :=
  [{ prim := tpName "A", children := [1], variantNodeMap := [("v", [("a", spliceVariant)])] },
   { prim := tpName "Dup" },
   { prim := tpName "B", children := [1] }]

/-- Fixture: a variant listing the same store index twice. -/
def dupTwiceVariant : VariantNode := { primChildren := [0, 0] }

/-- Fixture store whose node 1 lists store index 0 twice inside one
variant. -/
def dupVariantStore : List PrimNode :=
  [{ prim := tpName "A0" },
   { prim := tpName "bad", variantNodeMap := [("v", [("a", dupTwiceVariant)])] }]

/-- Fixture store for variant splicing: node 0 has ordinary children
1 and 2, and its variant records child 1. -/
def spliceStore : List PrimNode :=
  [{ prim := tpName "P", children := [1, 2], variantNodeMap := [("vs", [("x", spliceVariant)])] },
   { prim := tpName "C" },
   { prim := tpName "D" }]

/-- The Prim built from `spliceStore` index 0 (fixture). -/
def splicePrim : Prim :=
  match constructPrimTreeRec 10 false 0 spliceStore with
  | .ok p => p
  | .error _ => default

/-- Fixture: a `Path` whose parser-side validity flag is unset. -/
def invalidPath : Path :=
  { valid := false, absolute := false, root := false, primPart := "", propPart := "",
    parentPrimPathValid := false }

/-- Fixture: a well-formed relative prim path named X. -/
def okPath : Path :=
  { valid := true, absolute := false, root := false, primPart := "X", propPart := "",
    parentPrimPathValid := true }

/-- Fixture: an external schema reconstructor that always succeeds. -/
def reconOk : PropMap → List Reference → Except String Nat := fun _ _ => .ok 0

/-!  Helper lemmas. -/

theorem intMem_iff (v : Int) (l : List Int) : intMem v l = true ↔ v ∈ l := by
  induction l with
  | nil => simp [intMem]
  | cons x xs ih =>
    by_cases h : x = v
    · subst h
      simp [intMem]
    · simp [intMem, h, ih]
      intro hq
      exact absurd hq.symm h

theorem updateAt_length {α : Type} (l : List α) (i : Nat) (f : α → α) :
    (updateAt l i f).length = l.length := by
  induction l generalizing i with
  | nil => rfl
  | cons x xs ih =>
    cases i with
    | zero => rfl
    | succ j => simp [updateAt, ih]

theorem growTo_length {α : Type} [Inhabited α] (l : List α) (n : Nat) :
    (growTo l n).length = max l.length n := by
  simp [growTo]
  omega

theorem updateAt_getD_self {α : Type} (l : List α) (i : Nat) (f : α → α) (d : α)
    (h : i < l.length) : (updateAt l i f).getD i d = f (l.getD i d) := by
  induction l generalizing i with
  | nil => simp at h
  | cons x xs ih =>
    cases i with
    | zero => rfl
    | succ j =>
      simp only [updateAt, List.getD_cons_succ]
      exact ih j (by simpa using h)

theorem updateAt_getD_prim (l : List PrimNode) (j i : Nat) (f : PrimNode → PrimNode)
    (hf : ∀ x, (f x).prim = x.prim) :
    ((updateAt l j f).getD i default).prim = (l.getD i default).prim := by
  induction l generalizing j i with
  | nil => rfl
  | cons x xs ih =>
    cases j with
    | zero =>
      cases i with
      | zero => simp [updateAt, hf]
      | succ k => simp [updateAt]
    | succ j0 =>
      cases i with
      | zero => simp [updateAt]
      | succ k => simp only [updateAt, List.getD_cons_succ]; exact ih j0 k

/-!  C6: the warning channel.  The source's `PushWarn` appends to
`_err` (usda-reader.cc lines 327-329) while `GetWarning` returns
`_warn` (line 1086), so a message pushed through the warning channel
surfaces in `GetError()` and never in `GetWarning()`. -/

/-- C6: evaluating the code at the failing input.  Pushing a warning
on a fresh reader leaves `GetWarning()` empty and puts the full
message into `GetError()` — the opposite of the claim, which says
warnings accumulate into `GetWarning()` and do not appear in
`GetError()`. -/
theorem pushWarn_lands_in_error_string :
    getWarning (pushWarn initialReaderState "[USDA] some warning") = "" ∧
    getError (pushWarn initialReaderState "[USDA] some warning") = "[USDA] some warning" := by
  exact ⟨rfl, by decide⟩

/-!  C7: the prim-index allocator. -/

theorem runAssignsFrom_spec (parents : List Int) (st : ReaderState) :
    (runAssignsFrom st parents).1 =
      List.range' st.prim_nodes.length parents.length ∧
    (runAssignsFrom st parents).2.prim_nodes.length =
      st.prim_nodes.length + parents.length := by
  induction parents generalizing st with
  | nil => simp [runAssignsFrom]
  | cons p ps ih =>
    have h2 := ih { st with prim_nodes := st.prim_nodes ++ [default] }
    simp only [runAssignsFrom, primIdxAssign] at *
    simp only [List.length_append, List.length_cons, List.length_nil] at h2
    constructor
    · simp [List.range'_succ, h2.1]
    · simp only [h2.2, List.length_cons]
      omega

/-- C7: every allocator call returns the current PrimNode-store size
and grows the store by exactly one default slot, so the indices
assigned across any sequence of calls from a fresh reader are
`0, 1, 2, ...` contiguous from 0 and never reused, regardless of the
parent-index arguments. -/
theorem prim_idx_assign_contiguous (parents : List Int) :
    (runAssigns parents).1 = List.range parents.length ∧
    (runAssigns parents).2.prim_nodes.length = parents.length ∧
    ∀ (st : ReaderState) (p : Int),
      (primIdxAssign st p).1 = st.prim_nodes.length ∧
      (primIdxAssign st p).2.prim_nodes.length = st.prim_nodes.length + 1 := by
  have h := runAssignsFrom_spec parents initialReaderState
  refine ⟨?_, ?_, ?_⟩
  · rw [List.range_eq_range']
    simpa [runAssigns, initialReaderState] using h.1
  · simpa [runAssigns, initialReaderState] using h.2
  · intro st p
    exact ⟨rfl, by simp [primIdxAssign]⟩

/-!  C1: `GetAsLayer` after `Read`.  The `_primspec_invalidated`
flag starts `true` (line 1190) and no code path of the reader ever
sets it to `false`; we prove that every state-mutation available
during `Read` preserves the flag, hence the guard at line 1237 trips
on the very first `GetAsLayer` call. -/

theorem vsVariantLoop_flag (items : List (String × VariantContent)) (st : ReaderState)
    (setName : String) (acc : List (String × VariantNode)) :
    ((vsVariantLoop st setName acc items).2).primspec_invalidated = st.primspec_invalidated := by
  induction items generalizing st acc with
  | nil => rfl
  | cons item rest ih =>
    obtain ⟨vname, content⟩ := item
    simp only [vsVariantLoop]
    cases h1 : reconstructPrimMetaFrom {} content.metas with
    | error e => simp [pushError]
    | ok metas =>
      cases h2 : vsChildLoop st.prim_nodes [] content.primIndices with
      | mk res nodes2 =>
        cases res with
        | error e => simp
        | ok childIdxs =>
          simp only []
          rw [ih]

theorem vsSetLoop_flag (iv : VariantSetList) (st : ReaderState)
    (acc : List (String × List (String × VariantNode))) :
    ((vsSetLoop st acc iv).2).primspec_invalidated = st.primspec_invalidated := by
  induction iv generalizing st acc with
  | nil => rfl
  | cons item rest ih =>
    obtain ⟨setName, items⟩ := item
    simp only [vsSetLoop]
    cases h1 : vsVariantLoop st setName [] items with
    | mk res st2 =>
      have hflag : st2.primspec_invalidated = st.primspec_invalidated := by
        have := vsVariantLoop_flag items st setName []
        rw [h1] at this
        exact this
      cases res with
      | error e => simpa using hflag
      | ok vns =>
        simp only []
        rw [ih, hflag]

theorem primConstructCallback_flag (tyId : String)
    (recon : PropMap → List Reference → Except String Nat)
    (st : ReaderState) (fullPath : Path) (spec : Specifier) (primTypeName : String)
    (primName : Path) (primIdx parentPrimIdx : Int) (properties : PropMap)
    (inMeta : RawPrimMeta) (inVariants : VariantSetList) :
    ((primConstructCallback tyId recon st fullPath spec primTypeName primName primIdx
        parentPrimIdx properties inMeta inVariants).2).primspec_invalidated
      = st.primspec_invalidated := by
  unfold primConstructCallback
  split
  · rfl
  split
  · rfl
  split
  · rfl
  split
  · rfl
  cases h1 : reconstructPrimMetaFrom {} inMeta with
  | error e => simp [pushError]
  | ok meta =>
    simp only []
    cases h2 : recon properties (match meta.references with
      | some (_, refs) => refs
      | none => []) with
    | error e => simp [pushError]
    | ok schemaData =>
      simp only []
      cases h3 : vsSetLoop st [] inVariants with
      | mk res st2 =>
        have hflag : st2.primspec_invalidated = st.primspec_invalidated := by
          have := vsSetLoop_flag inVariants st []
          rw [h3] at this
          exact this
        cases res with
        | error e => simpa using hflag
        | ok variantSets =>
          simp only []
          split <;> simpa using hflag

theorem primSpecCallback_flag (st : ReaderState) (fullPath : Path) (spec : Specifier)
    (typeName : String) (primName : Path) (primIdx parentPrimIdx : Int)
    (properties : PropMap) (inMeta : RawPrimMeta) (inVariants : VariantSetList) :
    ((primSpecCallback st fullPath spec typeName primName primIdx parentPrimIdx
        properties inMeta inVariants).2).primspec_invalidated = st.primspec_invalidated := by
  unfold primSpecCallback
  split
  · rfl
  split
  · rfl
  split
  · rfl
  split
  · rfl
  split
  · rfl
  split <;> rfl

theorem subsetPropsLoop_flag (setE setF : String → Except String Nat)
    (props : List (String × Property)) (st : ReaderState) (subset : GeomSubsetData) :
    ((subsetPropsLoop setE setF st subset props).2).primspec_invalidated
      = st.primspec_invalidated := by
  induction props generalizing st subset with
  | nil => rfl
  | cons item rest ih =>
    obtain ⟨pname, p⟩ := item
    unfold subsetPropsLoop
    split
    · cases p with
      | rel => simp [pushError]
      | attr a =>
        rcases a with ⟨av, avar⟩
        cases av <;> cases avar <;> simp [pushError] <;>
          first
            | (cases h2 : setE _ with
               | ok v => simp only []; rw [ih]
               | error e => simp [pushError])
            | skip
    · split
      · cases p with
        | rel => simp [pushError]
        | attr a =>
          rcases a with ⟨av, avar⟩
          cases av <;> cases avar <;> simp [pushError] <;>
            first
              | (cases h2 : setF _ with
                 | ok v => simp only []; rw [ih]
                 | error e => simp [pushError])
              | skip
      · split
        · cases p with
          | rel => simp [pushError]
          | attr a =>
            rcases a with ⟨av, avar⟩
            cases av <;> simp [pushError] <;> rw [ih]
        · split
          · cases p with
            | rel => rw [ih]
            | attr a => simp [pushError]
          · split
            · cases p with
              | rel => simp [pushError]
              | attr a =>
                rcases a with ⟨av, avar⟩
                cases av <;> simp [pushError] <;> rw [ih]
            · rw [ih]
              rfl

theorem geomSubsetCallback_flag (setE setF : String → Except String Nat) (st : ReaderState)
    (fullPath : Path) (spec : Specifier) (primTypeName : String) (primName : Path)
    (primIdx parentPrimIdx : Int) (properties : PropMap)
    (inMeta : RawPrimMeta) (inVariants : VariantSetList) :
    ((geomSubsetCallback setE setF st fullPath spec primTypeName primName primIdx
        parentPrimIdx properties inMeta inVariants).2).primspec_invalidated
      = st.primspec_invalidated := by
  unfold geomSubsetCallback
  split
  · rfl
  split
  · rfl
  split
  · rfl
  cases h1 : reconstructPrimMetaFrom {} inMeta with
  | error e => simp [pushError]
  | ok meta =>
    simp only []
    cases h2 : subsetPropsLoop setE setF st {} properties with
    | mk res st2 =>
      have hflag : st2.primspec_invalidated = st.primspec_invalidated := by
        have := subsetPropsLoop_flag setE setF properties st {}
        rw [h2] at this
        exact this
      cases res with
      | none => simpa using hflag
      | some subsetData =>
        simp only []
        split <;> simpa using hflag

theorem applyOp_flag (st : ReaderState) (op : ReaderOp) :
    (applyOp st op).primspec_invalidated = st.primspec_invalidated := by
  cases op with
  | idxAssignOp p => rfl
  | primConstructOp tyId recon fp sp ptn pn pi ppi props m vs =>
    exact primConstructCallback_flag tyId recon st fp sp ptn pn pi ppi props m vs
  | primSpecOp fp sp tn pn pi ppi props m vs =>
    exact primSpecCallback_flag st fp sp tn pn pi ppi props m vs
  | geomSubsetOp sE sF fp sp ptn pn pi ppi props m vs =>
    exact geomSubsetCallback_flag sE sF st fp sp ptn pn pi ppi props m vs
  | pushErrOp s => rfl
  | pushWarnOp s => rfl

theorem runOps_flag (ops : List ReaderOp) (st : ReaderState) :
    (runOps st ops).primspec_invalidated = st.primspec_invalidated := by
  induction ops generalizing st with
  | nil => rfl
  | cons op rest ih =>
    simp only [runOps]
    rw [ih, applyOp_flag]

/-- C1: evaluating the code at the failing input.  After any `Read`
(modelled as an arbitrary sequence of the reader-state mutations a
`Read` call can perform, starting from a fresh reader), the very
first `GetAsLayer` call with a non-null layer argument already
returns `false` and produces no layer: `_primspec_invalidated` is
initialized `true` and never cleared, so the guard fires — contrary
to the claim that the first call after a non-Toplevel `Read`
succeeds and builds the PrimSpec tree. -/
theorem getAsLayer_first_call_fails (ops : List ReaderOp) (fuel : Nat) :
    (getAsLayer fuel (runOps initialReaderState ops) false).1 = false ∧
    (getAsLayer fuel (runOps initialReaderState ops) false).2.2 = none := by
  have h : (runOps initialReaderState ops).primspec_invalidated = true :=
    runOps_flag ops initialReaderState
  unfold getAsLayer
  simp [h]

/-!  C9 / C10: callback-entry validation. -/

/-- C9: for every invocation of the typed prim-construct callback,
the element name is validated before any state is stored: if the
name is invalid (which includes empty names), the path is absolute
or root, or the name carries a property part, the callback returns
an error and the reader state — in particular the PrimNode store —
is exactly the state before the call. -/
theorem primConstruct_validates_name (tyId : String)
    (recon : PropMap → List Reference → Except String Nat)
    (st : ReaderState) (fullPath : Path) (spec : Specifier) (primTypeName : String)
    (primName : Path) (primIdx parentPrimIdx : Int) (properties : PropMap)
    (inMeta : RawPrimMeta) (inVariants : VariantSetList)
    (h : primName.valid = false ∨ primName.absolute = true ∨ primName.root = true ∨
         primName.propPart ≠ "") :
    (∃ e, (primConstructCallback tyId recon st fullPath spec primTypeName primName primIdx
            parentPrimIdx properties inMeta inVariants).1 = .error e) ∧
    (primConstructCallback tyId recon st fullPath spec primTypeName primName primIdx
        parentPrimIdx properties inMeta inVariants).2 = st := by
  unfold primConstructCallback
  by_cases h1 : primName.valid = false
  · rw [if_pos h1]
    exact ⟨⟨_, rfl⟩, rfl⟩
  · rw [if_neg h1]
    by_cases h2 : (primName.absolute || primName.root) = true
    · rw [if_pos h2]
      exact ⟨⟨_, rfl⟩, rfl⟩
    · rw [if_neg h2]
      by_cases h3 : primName.propPart ≠ ""
      · rw [if_pos h3]
        exact ⟨⟨_, rfl⟩, rfl⟩
      · exfalso
        rcases h with h | h | h | h
        · exact h1 h
        · exact h2 (by simp [h])
        · exact h2 (by simp [h])
        · exact h3 h

/-- C9 witness: the theorem applied at a concrete invocation whose
element name fails validation: the fresh reader state is returned
unchanged together with an error. -/
theorem primConstruct_validates_name_witness :
    (∃ e, (primConstructCallback "Xform" reconOk initialReaderState okPath Specifier.defS
            "Xform" invalidPath 0 (-1) [] [] []).1 = .error e) ∧
    (primConstructCallback "Xform" reconOk initialReaderState okPath Specifier.defS
        "Xform" invalidPath 0 (-1) [] [] []).2 = initialReaderState :=
  primConstruct_validates_name "Xform" reconOk initialReaderState okPath Specifier.defS
    "Xform" invalidPath 0 (-1) [] [] [] (Or.inl rfl)

/-- C10: the GeomSubset prim-construct callback rejects a GeomSubset
declared at the top level: whenever `parentPrimIdx = -1` it returns
an error (`make_unexpected`) and mutates nothing — for every state,
path, specifier, name, property map, metadata, variant list and
element/family-type oracle. -/
theorem geomSubset_rejects_toplevel (setE setF : String → Except String Nat)
    (st : ReaderState) (fullPath : Path) (spec : Specifier) (primTypeName : String)
    (primName : Path) (primIdx : Int) (properties : PropMap)
    (inMeta : RawPrimMeta) (inVariants : VariantSetList) :
    (∃ e, (geomSubsetCallback setE setF st fullPath spec primTypeName primName primIdx
            (-1) properties inMeta inVariants).1 = .error e) ∧
    (geomSubsetCallback setE setF st fullPath spec primTypeName primName primIdx
        (-1) properties inMeta inVariants).2 = st := by
  unfold geomSubsetCallback
  by_cases h : fullPath.parentPrimPathValid = false
  · rw [if_pos h]
    exact ⟨⟨_, rfl⟩, rfl⟩
  · rw [if_neg h, if_pos (by norm_num : (-1 : Int) < 0)]
    exact ⟨⟨_, rfl⟩, rfl⟩

/-!  C5: strict metadata type checking. -/

theorem ite_error {c : Prop} [Decidable c] (a b : String) :
    ∃ e, (if c then (Except.error a : Except String PrimMeta) else .error b) = .error e := by
  by_cases h : c
  · exact ⟨a, if_pos h⟩
  · exact ⟨b, if_neg h⟩

theorem ite_ite_error {c d : Prop} [Decidable c] [Decidable d] (a a2 b : String) :
    ∃ e, (if c then (if d then (Except.error a : Except String PrimMeta) else .error a2)
          else .error b) = .error e := by
  by_cases h : c
  · rw [if_pos h]
    exact ite_error a a2
  · exact ⟨b, if_neg h⟩

set_option maxHeartbeats 2000000 in
theorem stepMeta_mismatch (k : String) (v : MetaValue) (out : PrimMeta) (q : ListEditQual)
    (h : strictMismatch k v = true) : ∃ e, stepMeta out k q v = .error e := by
  have hk : k = "active" ∨ k = "hidden" ∨ k = "sceneName" ∨ k = "displayName" ∨
      k = "kind" ∨ k = "customData" ∨ k = "assetInfo" ∨ k = "variants" ∨
      k = "inherits" ∨ k = "specializes" ∨ k = "variantSets" ∨ k = "apiSchemas" := by
    by_contra hknot
    push_neg at hknot
    obtain ⟨n1, n2, n3, n4, n5, n6, n7, n8, n9, n10, n11, n12⟩ := hknot
    unfold strictMismatch at h
    rw [if_neg n1, if_neg n2, if_neg n3, if_neg n4, if_neg n5, if_neg n6, if_neg n7,
        if_neg n8, if_neg n9, if_neg n10, if_neg n11, if_neg n12] at h
    exact Bool.false_ne_true h
  rcases hk with rfl | rfl | rfl | rfl | rfl | rfl | rfl | rfl | rfl | rfl | rfl | rfl <;>
    cases v <;>
      first
        | exact absurd h Bool.false_ne_true
        | exact ⟨_, rfl⟩
        | exact ite_error _ _
        | exact ite_ite_error _ _ _

/-- C5 (amended): for every raw metadata map and every entry whose
key belongs to the recognized closed set other than `references`,
`payload` and `comment` (that is: active, hidden, sceneName,
displayName, kind, customData, assetInfo, variants, inherits,
specializes, variantSets, apiSchemas) and whose value's type differs
from the type(s) the key's branch accepts — as encoded by
`strictMismatch` — `ReconstructPrimMeta` returns an error.
(`references` and `payload` additionally accept a single Reference,
a Reference list, or a blocked marker; the `comment` branch, contrary
to the original claim, silently ignores mismatched value types, see
the counterexample.) -/
theorem reconstructPrimMeta_strict_typecheck (l : RawPrimMeta) (out : PrimMeta)
    (k : String) (q : ListEditQual) (v : MetaValue)
    (hmem : (k, q, v) ∈ l) (hmm : strictMismatch k v = true) :
    ∃ e, reconstructPrimMetaFrom out l = .error e := by
  induction l generalizing out with
  | nil => cases hmem
  | cons hd tl ih =>
    obtain ⟨k0, q0, v0⟩ := hd
    rcases List.mem_cons.mp hmem with heq | htl
    · injection heq with h1 h23
      injection h23 with h2 h3
      subst h1
      subst h3
      obtain ⟨e, he⟩ := stepMeta_mismatch k v out q0 hmm
      exact ⟨e, by simp [reconstructPrimMetaFrom, he]⟩
    · cases hstep : stepMeta out k0 q0 v0 with
      | error e => exact ⟨e, by simp [reconstructPrimMetaFrom, hstep]⟩
      | ok out2 =>
        obtain ⟨e, he⟩ := ih out2 htl
        exact ⟨e, by simp [reconstructPrimMetaFrom, hstep, he]⟩

/-- C5 witness: the theorem applied at a concrete map carrying an
`active` entry of type `token`: the decode errors. -/
theorem reconstructPrimMeta_strict_typecheck_witness :
    ∃ e, reconstructPrimMetaFrom {}
      [("active", (ListEditQual.resetToExplicit, MetaValue.tokenV "x"))] = .error e :=
  reconstructPrimMeta_strict_typecheck
    [("active", (ListEditQual.resetToExplicit, MetaValue.tokenV "x"))] {}
    "active" ListEditQual.resetToExplicit (MetaValue.tokenV "x")
    (List.mem_singleton.mpr rfl) rfl

/-- C5 counterexample: the claim as stated is false for the key
`comment`, which belongs to the recognized closed set and is neither
`references` nor `payload`: a `comment` whose value is a `bool`
(not the expected string type) produces no error — the decode
succeeds and leaves the metadata record untouched. -/
theorem reconstructPrimMeta_comment_ignores_type :
    reconstructPrimMetaFrom {}
      [("comment", (ListEditQual.resetToExplicit, MetaValue.boolV true))] = .ok {} := by
  rfl

/-!  C2 / C3 / C4: the reconstruction pass. -/

theorem intMem_eq_of_mem_iff {l1 l2 : List Int} (h : ∀ v, v ∈ l1 ↔ v ∈ l2) (v : Int) :
    intMem v l1 = intMem v l2 := by
  by_cases hv : v ∈ l1
  · rw [(intMem_iff v l1).mpr hv, (intMem_iff v l2).mpr ((h v).mp hv)]
  · have hv2 : v ∉ l2 := fun hc => hv ((h v).mpr hc)
    have e1 : intMem v l1 = false := by
      cases hq : intMem v l1 with
      | false => rfl
      | true => exact absurd ((intMem_iff v l1).mp hq) hv
    have e2 : intMem v l2 = false := by
      cases hq : intMem v l2 with
      | false => rfl
      | true => exact absurd ((intMem_iff v l2).mp hq) hv2
    rw [e1, e2]

theorem variantsChildIndices_cons (vName : String) (vn : VariantNode)
    (rest : List (String × VariantNode)) :
    variantsChildIndices ((vName, vn) :: rest) = vn.primChildren ++ variantsChildIndices rest := by
  simp [variantsChildIndices]

theorem variantChildIndices_cons (vsName : String) (variants : List (String × VariantNode))
    (rest : List (String × List (String × VariantNode))) :
    variantChildIndices ((vsName, variants) :: rest) =
      variantsChildIndices variants ++ variantChildIndices rest := by
  simp [variantChildIndices]

theorem pvcLoop_ok (rec : Nat → Except String Prim) (n : Nat) (l : List Int) :
    ∀ (acc ps : List Prim) (visited visited2 : List Int),
    pvcLoop rec n l acc visited = .ok (ps, visited2) →
    visited2 = l.reverse ++ visited ∧ ps.length = acc.length + l.length ∧
    (∀ v ∈ l, v ∉ visited) ∧ l.Nodup := by
  induction l with
  | nil =>
    intro acc ps visited visited2 h
    simp only [pvcLoop, Except.ok.injEq, Prod.mk.injEq] at h
    obtain ⟨h1, h2⟩ := h
    subst h1
    subst h2
    simp
  | cons vidx rest ih =>
    intro acc ps visited visited2 h
    unfold pvcLoop at h
    by_cases h1 : intMem vidx visited = true
    · rw [if_pos h1] at h
      simp at h
    · rw [if_neg h1] at h
      by_cases h2 : (0 : Int) ≤ vidx ∧ vidx.toNat ≤ n
      · rw [if_pos h2] at h
        cases h3 : rec vidx.toNat with
        | error e => rw [h3] at h; simp at h
        | ok p =>
          rw [h3] at h
          obtain ⟨hv, hl, hm, hn⟩ := ih (acc ++ [p]) ps (vidx :: visited) visited2 h
          refine ⟨?_, ?_, ?_, ?_⟩
          · rw [hv]
            simp
          · rw [hl]
            simp only [List.length_append, List.length_cons, List.length_nil]
            omega
          · intro v hvmem
            rcases List.mem_cons.mp hvmem with rfl | hvrest
            · intro hcon
              exact h1 ((intMem_iff v visited).mpr hcon)
            · intro hcon
              exact hm v hvrest (List.mem_cons_of_mem _ hcon)
          · refine List.nodup_cons.mpr ⟨?_, hn⟩
            intro hcon
            exact hm vidx hcon (List.mem_cons_self _ _)
      · rw [if_neg h2] at h
        simp at h

theorem pvLoop_ok (rec : Nat → Except String Prim) (n : Nat)
    (variants : List (String × VariantNode)) :
    ∀ (acc out : List (String × PrimMeta × PropMap × List Prim)) (visited visited2 : List Int),
    pvLoop rec n variants acc visited = .ok (out, visited2) →
    visited2 = (variantsChildIndices variants).reverse ++ visited ∧
    (∀ v ∈ variantsChildIndices variants, v ∉ visited) ∧
    (variantsChildIndices variants).Nodup ∧
    ∃ built, out = acc ++ built ∧ List.Forall₂ variantRel variants built := by
  induction variants with
  | nil =>
    intro acc out visited visited2 h
    simp only [pvLoop, Except.ok.injEq, Prod.mk.injEq] at h
    obtain ⟨h1, h2⟩ := h
    subst h1
    subst h2
    refine ⟨by simp [variantsChildIndices], by simp [variantsChildIndices], by simp [variantsChildIndices], [], by simp, List.Forall₂.nil⟩
  | cons item rest ih =>
    obtain ⟨vName, vn⟩ := item
    intro acc out visited visited2 h
    unfold pvLoop at h
    cases h1 : pvcLoop rec n vn.primChildren [] visited with
    | error e => rw [h1] at h; simp at h
    | ok pr =>
      obtain ⟨ps, visited1⟩ := pr
      rw [h1] at h
      obtain ⟨hv1, hl1, hm1, hn1⟩ := pvcLoop_ok rec n vn.primChildren [] ps visited visited1 h1
      obtain ⟨hv2, hm2, hn2, built, hout, hrel⟩ := ih _ _ _ _ h
      have hsub : ∀ v : Int, v ∈ visited → v ∈ visited1 := by
        intro v hvv
        rw [hv1]
        exact List.mem_append_right _ hvv
      refine ⟨?_, ?_, ?_, (vName, vn.metas, vn.props, ps) :: built, ?_, ?_⟩
      · rw [hv2, hv1, variantsChildIndices_cons]
        simp [List.reverse_append, List.append_assoc]
      · intro v hvmem
        rw [variantsChildIndices_cons] at hvmem
        rcases List.mem_append.mp hvmem with hL | hR
        · exact hm1 v hL
        · intro hcon
          exact hm2 v hR (hsub v hcon)
      · rw [variantsChildIndices_cons]
        rw [List.nodup_append]
        refine ⟨hn1, hn2, ?_⟩
        intro a haL haR
        have hnot := hm2 a haR
        rw [hv1] at hnot
        exact hnot (List.mem_append_left _ (List.mem_reverse.mpr haL))
      · rw [hout]
        simp
      · exact List.Forall₂.cons ⟨rfl, rfl, rfl, by rw [hl1]; simp⟩ hrel

theorem pvsLoop_ok (rec : Nat → Except String Prim) (n : Nat)
    (vsl : List (String × List (String × VariantNode))) :
    ∀ (acc out : List (String × List (String × PrimMeta × PropMap × List Prim)))
      (visited visited2 : List Int),
    pvsLoop rec n vsl acc visited = .ok (out, visited2) →
    visited2 = (variantChildIndices vsl).reverse ++ visited ∧
    (∀ v ∈ variantChildIndices vsl, v ∉ visited) ∧
    (variantChildIndices vsl).Nodup ∧
    ∃ built, out = acc ++ built ∧ List.Forall₂ variantSetRel vsl built := by
  induction vsl with
  | nil =>
    intro acc out visited visited2 h
    simp only [pvsLoop, Except.ok.injEq, Prod.mk.injEq] at h
    obtain ⟨h1, h2⟩ := h
    subst h1
    subst h2
    refine ⟨by simp [variantChildIndices], by simp [variantChildIndices], by simp [variantChildIndices], [], by simp, List.Forall₂.nil⟩
  | cons item rest ih =>
    obtain ⟨vsName, variants⟩ := item
    intro acc out visited visited2 h
    unfold pvsLoop at h
    cases h1 : pvLoop rec n variants [] visited with
    | error e => rw [h1] at h; simp at h
    | ok pr =>
      obtain ⟨vars, visited1⟩ := pr
      rw [h1] at h
      obtain ⟨hv1, hm1, hn1, built1, hout1, hrel1⟩ := pvLoop_ok rec n variants [] vars visited visited1 h1
      obtain ⟨hv2, hm2, hn2, built, hout, hrel⟩ := ih _ _ _ _ h
      have hsub : ∀ v : Int, v ∈ visited → v ∈ visited1 := by
        intro v hvv
        rw [hv1]
        exact List.mem_append_right _ hvv
      refine ⟨?_, ?_, ?_, (vsName, vars) :: built, ?_, ?_⟩
      · rw [hv2, hv1, variantChildIndices_cons]
        simp [List.reverse_append, List.append_assoc]
      · intro v hvmem
        rw [variantChildIndices_cons] at hvmem
        rcases List.mem_append.mp hvmem with hL | hR
        · exact hm1 v hL
        · intro hcon
          exact hm2 v hR (hsub v hcon)
      · rw [variantChildIndices_cons]
        rw [List.nodup_append]
        refine ⟨hn1, hn2, ?_⟩
        intro a haL haR
        have hnot := hm2 a haR
        rw [hv1] at hnot
        exact hnot (List.mem_append_left _ (List.mem_reverse.mpr haL))
      · rw [hout]
        simp
      · refine List.Forall₂.cons ⟨rfl, ?_⟩ hrel
        show List.Forall₂ variantRel variants vars
        rw [hout1]
        simpa using hrel1

theorem pocLoop_ok (rec : Nat → Except String Prim) (visited : List Int) (cs : List Nat) :
    ∀ (acc ps : List Prim),
    pocLoop rec visited cs acc = .ok ps →
    ps.length = acc.length +
      (cs.filter (fun c => !(intMem (Int.ofNat c) visited))).length := by
  induction cs with
  | nil =>
    intro acc ps h
    simp only [pocLoop, Except.ok.injEq] at h
    subst h
    simp
  | cons c rest ih =>
    intro acc ps h
    unfold pocLoop at h
    by_cases h1 : intMem (Int.ofNat c) visited = true
    · rw [if_pos h1] at h
      have := ih acc ps h
      rw [this]
      simp only [List.filter_cons]
      rw [if_neg (fun hcon => by rw [h1] at hcon; exact Bool.false_ne_true hcon)]
    · rw [if_neg h1] at h
      cases h2 : rec c with
      | error e => rw [h2] at h; simp at h
      | ok p =>
        rw [h2] at h
        have := ih (acc ++ [p]) ps h
        rw [this]
        have hb : intMem (Int.ofNat c) visited = false := by
          cases hq : intMem (Int.ofNat c) visited with
          | false => rfl
          | true => exact absurd hq h1
        simp only [List.filter_cons, hb, Bool.not_false, if_pos]
        simp only [List.length_append, List.length_cons, List.length_nil]
        omega

theorem construct_succ_parts (fuel : Nat) (primIdx : Nat) (nodes : List PrimNode) (p : Prim)
    (h : constructPrimTreeRec (fuel + 1) false primIdx nodes = .ok p) :
    primIdx < nodes.length ∧
    ∃ vsets visited childPrims,
      pvsLoop (fun v => constructPrimTreeRec fuel false v nodes) nodes.length
        (nodes.getD primIdx default).variantNodeMap [] [] = .ok (vsets, visited) ∧
      pocLoop (fun v => constructPrimTreeRec fuel false v nodes) visited
        (nodes.getD primIdx default).children [] = .ok childPrims ∧
      p = Prim.mk (nodes.getD primIdx default).prim (nodes.getD primIdx default).typeName
            vsets childPrims := by
  unfold constructPrimTreeRec at h
  rw [if_neg Bool.false_ne_true] at h
  by_cases hlen : nodes.length ≤ primIdx
  · rw [if_pos hlen] at h
    simp at h
  · rw [if_neg hlen] at h
    simp only [] at h
    refine ⟨by omega, ?_⟩
    cases h1 : pvsLoop (fun v => constructPrimTreeRec fuel false v nodes) nodes.length
        (nodes.getD primIdx default).variantNodeMap [] [] with
    | error e => rw [h1] at h; simp at h
    | ok pr =>
      obtain ⟨vsets, visited⟩ := pr
      rw [h1] at h
      simp only [] at h
      cases h2 : pocLoop (fun v => constructPrimTreeRec fuel false v nodes) visited
          (nodes.getD primIdx default).children [] with
      | error e => rw [h2] at h; simp at h
      | ok childPrims =>
        rw [h2] at h
        simp only [Except.ok.injEq] at h
        exact ⟨vsets, visited, childPrims, rfl, h2, h.symm⟩

theorem construct_error_of_dup (fuel : Nat) (primIdx : Nat) (nodes : List PrimNode)
    (h : ¬ (variantChildIndices (nodes.getD primIdx default).variantNodeMap).Nodup) :
    ∃ e, constructPrimTreeRec fuel false primIdx nodes = .error e := by
  cases hres : constructPrimTreeRec fuel false primIdx nodes with
  | error e => exact ⟨e, rfl⟩
  | ok p =>
    exfalso
    cases fuel with
    | zero => simp [constructPrimTreeRec] at hres
    | succ f =>
      obtain ⟨hlen, vsets, visited, childPrims, h1, h2, h3⟩ :=
        construct_succ_parts f primIdx nodes p hres
      obtain ⟨hv, hm, hnodup, _⟩ := pvsLoop_ok _ _ _ _ _ _ _ h1
      exact h hnodup

theorem construct_error_of_out_of_range (fuel : Nat) (primIdx : Nat) (nodes : List PrimNode)
    (h : nodes.length ≤ primIdx) :
    ∃ e, constructPrimTreeRec fuel false primIdx nodes = .error e := by
  cases fuel with
  | zero => exact ⟨_, rfl⟩
  | succ f =>
    exact ⟨"primIndex exceeds prim_nodes.size()", by
      unfold constructPrimTreeRec
      rw [if_neg Bool.false_ne_true, if_pos h]⟩

/-- C3 (amended): exactly-once emission is enforced only node-locally.
Whenever a node's own variants record the same child index twice
(across all of that node's variant sets), `ConstructPrimTreeRec` on
that node fails — this is the only duplicate detection the pass
performs; the `variantChildrenIndices` visited set is local to one
node, so cross-node duplicate reachability is not detected (see the
counterexample, where an index reachable from two different nodes is
emitted twice in a successful reconstruction) and unreachable
indices are silently never emitted. -/
theorem perNode_duplicate_variant_child_fails (fuel : Nat) (primIdx : Nat)
    (nodes : List PrimNode)
    (h : ¬ (variantChildIndices (nodes.getD primIdx default).variantNodeMap).Nodup) :
    ∃ e, constructPrimTreeRec fuel false primIdx nodes = .error e :=
  construct_error_of_dup fuel primIdx nodes h

/-- C3 witness: the amended theorem applied to the concrete store
whose node 1 lists index 0 twice inside one variant. -/
theorem perNode_duplicate_variant_child_fails_witness :
    ∃ e, constructPrimTreeRec 10 false 1 dupVariantStore = .error e :=
  perNode_duplicate_variant_child_fails 10 1 dupVariantStore (by decide)

/-- C3 counterexample: the claim as stated is false.  In
`crossDupStore` (3 nodes), index 1 — the unique node named Dup — is
recorded as a variant child of node 0 and as an ordinary child of
node 2; `ReconstructStage` over toplevel [0, 2] nevertheless
succeeds and emits the Dup node twice, so the index is not "emitted
exactly once" and the duplicate reachability is not "detected ...
and makes reconstruction fail". -/
theorem crossNode_duplicate_not_detected :
    (reconstructStage 10 crossDupStore [0, 2]).1 = true ∧
    primListNameCount "Dup" (reconstructStage 10 crossDupStore [0, 2]).2 = 2 ∧
    crossDupStore.length = 3 ∧
    (crossDupStore.filter (fun nd => nd.prim.name == "Dup")).length = 1 := by
  refine ⟨by decide, by decide, by decide, by decide⟩

/-- C4: for every PrimNode whose `variantNodeMap` records a child
index `c` in some variant's `primChildren`, a successful
`ConstructPrimTreeRec` on that node (1) has `c` recorded exactly
once across all of the node's variants, (2) emits each variant's
children inside the corresponding output Variant, one emitted Prim
per recorded index (`variantSetRel`), and (3) emits as ordinary
children exactly the node's child indices that are not variant
children — so `c` contributes no ordinary child of the output
Prim. -/
theorem variant_child_spliced_into_variant (fuel primIdx : Nat) (nodes : List PrimNode)
    (p : Prim) (c : Int)
    (hok : constructPrimTreeRec fuel false primIdx nodes = .ok p)
    (hc : c ∈ variantChildIndices (nodes.getD primIdx default).variantNodeMap) :
    (variantChildIndices (nodes.getD primIdx default).variantNodeMap).count c = 1 ∧
    List.Forall₂ variantSetRel (nodes.getD primIdx default).variantNodeMap p.variantSets ∧
    p.children.length = ((nodes.getD primIdx default).children.filter
      (fun k => !(intMem (Int.ofNat k)
        (variantChildIndices (nodes.getD primIdx default).variantNodeMap)))).length := by
  cases fuel with
  | zero => exact absurd hok (by simp [constructPrimTreeRec])
  | succ f =>
    obtain ⟨hlen, vsets, visited, childPrims, h1, h2, h3⟩ :=
      construct_succ_parts f primIdx nodes p hok
    obtain ⟨hv, hm, hnodup, built, hout, hrel⟩ := pvsLoop_ok _ _ _ _ _ _ _ h1
    have hvis : visited = (variantChildIndices (nodes.getD primIdx default).variantNodeMap).reverse := by
      rw [hv]
      simp
    refine ⟨List.count_eq_one_of_mem hnodup hc, ?_, ?_⟩
    · rw [h3]
      show List.Forall₂ variantSetRel _ vsets
      rw [hout]
      simpa using hrel
    · have hlen2 := pocLoop_ok _ visited _ [] childPrims h2
      rw [h3]
      show childPrims.length = _
      rw [hlen2]
      simp only [List.length_nil, Nat.zero_add]
      apply congrArg List.length
      apply List.filter_congr
      intro x hx
      rw [hvis]
      have hmr := @intMem_eq_of_mem_iff
        ((variantChildIndices (nodes.getD primIdx default).variantNodeMap).reverse)
        (variantChildIndices (nodes.getD primIdx default).variantNodeMap)
        (fun v => List.mem_reverse) (Int.ofNat x)
      rw [hmr]

/-- C4 witness: the theorem applied to `spliceStore`: node 0 records
child 1 inside variant (vs, x) and lists children [1, 2]; the built
Prim places the child inside the variant and keeps exactly one
ordinary child. -/
theorem variant_child_spliced_into_variant_witness :
    (variantChildIndices (spliceStore.getD 0 default).variantNodeMap).count 1 = 1 ∧
    List.Forall₂ variantSetRel (spliceStore.getD 0 default).variantNodeMap
      splicePrim.variantSets ∧
    splicePrim.children.length = ((spliceStore.getD 0 default).children.filter
      (fun k => !(intMem (Int.ofNat k)
        (variantChildIndices (spliceStore.getD 0 default).variantNodeMap)))).length :=
  variant_child_spliced_into_variant 10 0 spliceStore splicePrim 1 rfl (by decide)

theorem reconstructStageLoop_prefix (fuel : Nat) (nodes : List PrimNode) (idx : Nat)
    (post : List Nat) (herr : ∃ e, constructPrimTreeRec fuel false idx nodes = .error e)
    (pre : List Nat) :
    ∀ acc : List Prim, (∀ j ∈ pre, ∃ q, constructPrimTreeRec fuel false j nodes = .ok q) →
    (reconstructStageLoop fuel nodes (pre ++ idx :: post) acc).1 = false ∧
    (reconstructStageLoop fuel nodes (pre ++ idx :: post) acc).2.length =
      acc.length + pre.length := by
  induction pre with
  | nil =>
    intro acc _
    obtain ⟨e, he⟩ := herr
    simp [reconstructStageLoop, he]
  | cons j rest ih =>
    intro acc hpre
    obtain ⟨q, hq⟩ := hpre j (List.mem_cons_self _ _)
    have hrec := ih (acc ++ [q]) (fun j2 hj2 => hpre j2 (List.mem_cons_of_mem _ hj2))
    have hstep : reconstructStageLoop fuel nodes ((j :: rest) ++ idx :: post) acc =
        reconstructStageLoop fuel nodes (rest ++ idx :: post) (acc ++ [q]) := by
      show reconstructStageLoop fuel nodes (j :: (rest ++ idx :: post)) acc = _
      simp only [reconstructStageLoop, hq]
    refine ⟨?_, ?_⟩
    · rw [hstep]
      exact hrec.1
    · rw [hstep, hrec.2]
      simp only [List.length_append, List.length_cons, List.length_nil]
      omega

/-- C2 (amended): when the reconstruction pass hits an out-of-range
prim index or a duplicate variant child at a toplevel entry,
`ReconstructStage` returns `false` — but partial results are not
fully discarded: the root Prims completed before the failing
toplevel entry remain in the Stage's root list (exactly one output
root per preceding toplevel index). -/
theorem reconstructStage_error_keeps_prefix (fuel : Nat) (nodes : List PrimNode)
    (pre post : List Nat) (idx : Nat)
    (hpre : ∀ j ∈ pre, ∃ q, constructPrimTreeRec fuel false j nodes = .ok q)
    (htrig : nodes.length ≤ idx ∨
      ¬ (variantChildIndices (nodes.getD idx default).variantNodeMap).Nodup) :
    (reconstructStage fuel nodes (pre ++ idx :: post)).1 = false ∧
    (reconstructStage fuel nodes (pre ++ idx :: post)).2.length = pre.length := by
  have herr : ∃ e, constructPrimTreeRec fuel false idx nodes = .error e := by
    rcases htrig with hlen | hdup
    · exact construct_error_of_out_of_range fuel idx nodes hlen
    · exact construct_error_of_dup fuel idx nodes hdup
  have := reconstructStageLoop_prefix fuel nodes idx post herr pre [] hpre
  simpa [reconstructStage] using this

/-- C2 witness: the amended theorem applied to `dupVariantStore`
with toplevel [0, 1]: entry 0 reconstructs, entry 1 has a duplicate
variant child; the pass returns `false` with exactly the one
completed root retained. -/
theorem reconstructStage_error_keeps_prefix_witness :
    (reconstructStage 10 dupVariantStore ([0] ++ 1 :: [])).1 = false ∧
    (reconstructStage 10 dupVariantStore ([0] ++ 1 :: [])).2.length = [0].length :=
  reconstructStage_error_keeps_prefix 10 dupVariantStore [0] [] 1
    (by
      intro j hj
      simp only [List.mem_singleton] at hj
      subst hj
      exact ⟨_, rfl⟩)
    (Or.inr (by decide))

/-- C2 counterexample: the claim as stated is false.  With
`dupVariantStore` and toplevel [0, 1], `ReconstructStage` fails on
entry 1 (duplicate variant child) and returns `false`, yet the
Stage still holds the root Prim built for entry 0 — a partial result
observable after the failed call, where the claim requires none. -/
theorem reconstructStage_partial_result_observable :
    (reconstructStage 10 dupVariantStore [0, 1]).1 = false ∧
    (reconstructStage 10 dupVariantStore [0, 1]).2.length = 1 := by
  refine ⟨by decide, by decide⟩

/-!  C8: unknown Prim types fall back to Model with the original
type name preserved. -/

/-- C8: when a declared type name matches no registered typed
callback and `allow_unknown_prims` is set, the parser dispatch
(modelled from the spec) fires the `"Model"` callback; and whenever
that callback succeeds, the PrimNode stored at the assigned index
holds a Model value whose `prim_type_name` field equals the original
declared type-name string (the `as<Model>()` block at usda-reader.cc
lines 557-564). -/
theorem unknown_type_stored_as_model (registered : List String) (typeName : String)
    (hreg : typeName ∉ registered)
    (recon : PropMap → List Reference → Except String Nat)
    (st : ReaderState) (fullPath : Path) (spec : Specifier) (primName : Path)
    (primIdx parentPrimIdx : Int) (properties : PropMap)
    (inMeta : RawPrimMeta) (inVariants : VariantSetList) (b : Bool)
    (hok : (primConstructCallback "Model" recon st fullPath spec typeName primName primIdx
        parentPrimIdx properties inMeta inVariants).1 = .ok b) :
    dispatchPrimConstruct registered true typeName = some "Model" ∧
    (((primConstructCallback "Model" recon st fullPath spec typeName primName primIdx
        parentPrimIdx properties inMeta inVariants).2).prim_nodes.getD
        primIdx.toNat default).prim.tyId = "Model" ∧
    (((primConstructCallback "Model" recon st fullPath spec typeName primName primIdx
        parentPrimIdx properties inMeta inVariants).2).prim_nodes.getD
        primIdx.toNat default).prim.prim_type_name = typeName := by
  refine ⟨by simp [dispatchPrimConstruct, hreg], ?_⟩
  unfold primConstructCallback at hok ⊢
  by_cases h1 : primName.valid = false
  · rw [if_pos h1] at hok
    simp at hok
  · rw [if_neg h1] at hok ⊢
    by_cases h2 : (primName.absolute || primName.root) = true
    · rw [if_pos h2] at hok
      simp at hok
    · rw [if_neg h2] at hok ⊢
      by_cases h3 : primName.propPart ≠ ""
      · rw [if_pos h3] at hok
        simp at hok
      · rw [if_neg h3] at hok ⊢
        by_cases h4 : primIdx < 0
        · rw [if_pos h4] at hok
          simp at hok
        · rw [if_neg h4] at hok ⊢
          set mres := reconstructPrimMetaFrom {} inMeta with hmres
          clear_value mres
          cases mres with
          | error e =>
            simp at hok
          | ok meta =>
            simp only [] at hok ⊢
            set rres := recon properties
                (match meta.references with
                 | some (_, refs) => refs
                 | none => []) with hrres
            clear_value rres
            cases rres with
            | error e =>
              simp at hok
            | ok schemaData =>
              simp only [] at hok ⊢
              set vres := vsSetLoop st [] inVariants with hvres
              clear_value vres
              obtain ⟨res, st2⟩ := vres
              cases res with
              | error e =>
                simp at hok
              | ok variantSets =>
                simp only [] at hok ⊢
                have hlt : primIdx.toNat <
                    (growTo st2.prim_nodes (primIdx.toNat + 1)).length := by
                  rw [growTo_length]
                  omega
                by_cases h8 : parentPrimIdx = -1
                · rw [if_pos h8]
                  simp only []
                  rw [updateAt_getD_self _ _ _ _ hlt]
                  simp
                · rw [if_neg h8]
                  simp only []
                  rw [updateAt_getD_prim _ parentPrimIdx.toNat primIdx.toNat
                    (fun nd => { nd with children := nd.children ++ [primIdx.toNat] })
                    (fun x => rfl)]
                  rw [updateAt_getD_self _ _ _ _ hlt]
                  simp

/-- C8 witness: the theorem applied at a concrete invocation: the
callback registered for Model, fired with declared type name
"Wobble" (matching no registered typed callback), succeeds and
stores a Model node whose `prim_type_name` is "Wobble". -/
theorem unknown_type_stored_as_model_witness :
    dispatchPrimConstruct ["Xform", "Mesh", "Scope"] true "Wobble" = some "Model" ∧
    (((primConstructCallback "Model" reconOk initialReaderState okPath Specifier.defS
        "Wobble" okPath 0 (-1) [] [] []).2).prim_nodes.getD
        (0 : Int).toNat default).prim.tyId = "Model" ∧
    (((primConstructCallback "Model" reconOk initialReaderState okPath Specifier.defS
        "Wobble" okPath 0 (-1) [] [] []).2).prim_nodes.getD
        (0 : Int).toNat default).prim.prim_type_name = "Wobble" :=
  unknown_type_stored_as_model ["Xform", "Mesh", "Scope"] "Wobble" (by decide)
    reconOk initialReaderState okPath Specifier.defS okPath 0 (-1) [] [] [] true rfl

end UsdaReader
